import Mathlib

/-!
Verification development for the bounded in-memory telemetry buffer and
batch-export engine in `src/opentelemetry.h` (class `OpenTelemetry`).

Shallow embedding conventions:
* The C++ object state (`batchMetrics`/`metricCount`, `spans`/`spanCount`,
  `activeSpanCount`, `currentTraceId`, `lastErrorMessage`, `lastHttpCode`) is a
  Lean structure `OTelState`.  A fixed-capacity C array together with its
  occupancy counter is modelled as the list of its first `count` elements
  (the code never reads past the counter), so `metricCount = metrics.length`
  and `spanCount = spans.length`.
* `uint64_t` quantities (ids, timestamps) are `Nat`.  The code performs no
  arithmetic on them that can overflow (they are only generated, stored,
  compared and printed), so no `% 2^64` reduction is needed.  The `uint8_t`
  counter `activeSpanCount` is incremented/decremented with explicit mod-256
  arithmetic (`inc8`/`dec8`), matching C unsigned wrap-around.
* External effects are injected: the time provider is the value `Env.now`
  (constant for the duration of one call), WiFi connectivity is a pair of
  booleans sampled at the two points the code queries it, and the HTTP
  transport is a finite stream (`List Int`) of status codes, one consumed per
  `http.POST`; an exhausted stream models a connection failure (POST
  returning code 0, which is outside 200..299).
* `vsnprintf`-based incremental JSON writing (`appendToBuffer`) is modelled
  on Lean `String`s: each C `appendToBuffer(buffer, pos, max, fmt, ...)` call
  becomes one `appendToBuffer max buf chunk` where `chunk` is the fully
  formatted text of that single call.  `%llu` is decimal `toString`,
  `%016llx` is the 16-digit lowercase-hex rendering `hex16`, and `%.2f`
  (double formatting) is the injected `Env.fmtDouble`.  The negative-return
  branch of `vsnprintf` (encoding error) cannot occur for these format
  strings and is not modelled.
* `debugLog` output, `http.begin/addHeader/setTimeout/end` and the response
  body logging have no effect on the modelled state and are dropped.
  `String lastErrorMessage` contents from `http.errorToString`/`getString`
  are injected via `Env.errorToString`/`Env.responseBody`.
* `const char*` strings are Lean `String`s; a NULL pointer where the code
  only checks emptiness (`tracesEndpoint`) is modelled as `""`, and the
  never-exercised NULL `stringValue` of a numeric attribute as `""`.
-/

set_option maxRecDepth 20000

namespace IotOtel

/-- MAX_METRICS from opentelemetry.h. -/
def MAX_METRICS : Nat := 15

/-- MAX_SPANS from opentelemetry.h. -/
def MAX_SPANS : Nat := 50

/-- MAX_SPANS_PER_BATCH from opentelemetry.h. -/
def MAX_SPANS_PER_BATCH : Nat := 15

/-- MAX_SPAN_ATTRS from opentelemetry.h. -/
def MAX_SPAN_ATTRS : Nat := 10

/-- Size of the pre-allocated `char jsonBuffer[4096]`. -/
def JSON_BUFFER_SIZE : Nat := 4096

/-- struct MetricPoint: name, double value, capture timestamp (nanoseconds). -/
structure MetricPoint where
  name : String
  value : Float
  timestamp_nanos : Nat

/-- struct SpanAttribute: key plus a string-or-double tagged value. -/
structure SpanAttribute where
  key : String
  stringValue : String
  doubleValue : Float
  isString : Bool

/-- struct Span.  The `char name[32]` field together with the `strncpy`
truncation in `startSpan` means at most 31 characters are stored.
`attributes`/`attributeCount` are modelled as the list of the first
`attributeCount` entries of the fixed array. -/
structure Span where
  name : String
  traceId0 : Nat
  traceId1 : Nat
  spanId : Nat
  parentSpanId : Nat
  startTimeNanos : Nat
  endTimeNanos : Nat
  attributes : List SpanAttribute
  isActive : Bool

/-- The mutable members of the `OpenTelemetry` object that the modelled
operations read or write. -/
structure OTelState where
  metrics : List MetricPoint
  spans : List Span
  activeSpanCount : Nat
  currentTraceId0 : Nat
  currentTraceId1 : Nat
  lastErrorMessage : String
  lastHttpCode : Int

/-- Injected environment: configuration strings, the time provider's value
for the duration of one call, WiFi connectivity at the two query points of
`sendMetrics`, and the text produced by double formatting and by the HTTP
client's error/response accessors. -/
structure Env where
  now : Nat
  serviceName : String
  serviceVersion : String
  wifiSsid : String
  tracesEndpoint : String
  wifiConnected : Bool
  wifiStillConnected : Bool
  fmtDouble : Float → String
  errorToString : Int → String
  responseBody : Int → String

/-- uint8_t increment (mod 256). -/
def inc8 (n : Nat) : Nat := (n + 1) % 256

/-- uint8_t decrement (mod 256). -/
def dec8 (n : Nat) : Nat := (n + 255) % 256

/-- uint8_t subtraction `a - b` (mod 256), used by `getSpanStats`. -/
def sub8 (a b : Nat) : Nat := (a + 256 - b % 256) % 256

/-- The repeated C test `!spans[i].isActive && spans[i].endTimeNanos > 0`
("completed span", eligible for export). -/
def isCompletedSpan (s : Span) : Bool := !s.isActive && s.endTimeNanos != 0

/-- The C test `!spans[i].isActive && spans[i].endTimeNanos == 1` used by
`removeMarkedSpans` ("marked for removal"). -/
def isMarkedSpan (s : Span) : Bool := !s.isActive && s.endTimeNanos == 1

/-- Number of completed spans (the counting loops of `createTracePayload`,
`sendTraces`, `sendMetricsAndTraces`). -/
def countCompleted (l : List Span) : Nat := (l.filter isCompletedSpan).length

/-- Number of spans whose `isActive` flag is set. -/
def countActive (l : List Span) : Nat := (l.filter (fun s => s.isActive)).length

/-- Number of spans marked for removal. -/
def countMarked (l : List Span) : Nat := (l.filter isMarkedSpan).length

/-- appendToBuffer: one `vsnprintf` into `buffer+position` with bound
`maxSize - position`.  The write succeeds iff the formatted text *and* its
terminating NUL fit, i.e. iff `written < maxSize - position`; on success the
position advances by `written`.  The buffer content up to `position` is the
string `buf` (so `position = buf.length`), and `chunk` is the formatted
text. -/
def appendToBuffer (maxSize : Nat) (buf : String) (chunk : String) : Option String :=
  if chunk.length ≥ maxSize - buf.length then none
  else some (buf ++ chunk)

/-- Fixed-width lowercase hex digit. -/
def hexDigitChar (n : Nat) : Char := if n < 10 then Char.ofNat (48 + n) else Char.ofNat (87 + n)

/-- Fixed-width lowercase hex rendering (width `w`), most significant digit
first; for `w = 16` this is exactly `sprintf "%016llx"` of a uint64. -/
def hexFixed : Nat → Nat → String
  | 0, _ => ""
  | w + 1, n => hexFixed w (n / 16) ++ String.singleton (hexDigitChar (n % 16))

/-- sprintf `%016llx` of a 64-bit id. -/
def hex16 (n : Nat) : String := hexFixed 16 n

/-- The single-metric chunk of `createBatchPayload` (one vsnprintf). -/
def metricJson (env : Env) (m : MetricPoint) : String :=
  "\x7b\"name\":\"" ++ m.name ++ "\",\"gauge\":\x7b\"dataPoints\":[\x7b\"timeUnixNano\":\"" ++
    toString m.timestamp_nanos ++ "\",\"asDouble\":" ++ env.fmtDouble m.value ++ "\x7d]\x7d\x7d"

/-- The `for (i < metricCount)` loop of `createBatchPayload`: a comma before
every metric except the first, then the metric chunk. -/
def appendMetricList (env : Env) : List MetricPoint → String → Bool → Option String
  | [], buf, _ => some buf
  | m :: rest, buf, isFirst =>
    (if isFirst then some buf else appendToBuffer JSON_BUFFER_SIZE buf ",").bind fun b1 =>
    (appendToBuffer JSON_BUFFER_SIZE b1 (metricJson env m)).bind fun b2 =>
    appendMetricList env rest b2 false

/-- createBatchPayload: renders the metrics batch into the 4096-byte JSON
buffer; `none` models the `return false` taken when any write would
overflow. -/
def createBatchPayload (env : Env) (metrics : List MetricPoint) : Option String :=
  (appendToBuffer JSON_BUFFER_SIZE "" "\x7b\"resourceMetrics\":[\x7b\"resource\":\x7b\"attributes\":[").bind fun b1 =>
  (appendToBuffer JSON_BUFFER_SIZE b1
    ("\x7b\"key\":\"service.name\",\"value\":\x7b\"stringValue\":\"" ++ env.serviceName ++ "\"\x7d\x7d,")).bind fun b2 =>
  (appendToBuffer JSON_BUFFER_SIZE b2
    ("\x7b\"key\":\"service.version\",\"value\":\x7b\"stringValue\":\"" ++ env.serviceVersion ++ "\"\x7d\x7d,")).bind fun b3 =>
  (appendToBuffer JSON_BUFFER_SIZE b3
    ("\x7b\"key\":\"wifi.ssid\",\"value\":\x7b\"stringValue\":\"" ++ env.wifiSsid ++ "\"\x7d\x7d")).bind fun b4 =>
  (appendToBuffer JSON_BUFFER_SIZE b4 "]\x7d,\"scopeMetrics\":[\x7b\"metrics\":[").bind fun b5 =>
  (appendMetricList env metrics b5 true).bind fun b6 =>
  appendToBuffer JSON_BUFFER_SIZE b6 "]\x7d]\x7d]\x7d"

/-- One attribute chunk of the trace payload (one vsnprintf, string or double
variant selected by the discriminant). -/
def spanAttrJson (env : Env) (a : SpanAttribute) : String :=
  if a.isString then
    "\x7b\"key\":\"" ++ a.key ++ "\",\"value\":\x7b\"stringValue\":\"" ++ a.stringValue ++ "\"\x7d\x7d"
  else
    "\x7b\"key\":\"" ++ a.key ++ "\",\"value\":\x7b\"doubleValue\":" ++ env.fmtDouble a.doubleValue ++ "\x7d\x7d"

/-- The `for (j < attributeCount)` loop of `createTracePayload`. -/
def appendAttrList (env : Env) : List SpanAttribute → String → Bool → Option String
  | [], buf, _ => some buf
  | a :: rest, buf, isFirst =>
    (if isFirst then some buf else appendToBuffer JSON_BUFFER_SIZE buf ",").bind fun b1 =>
    (appendToBuffer JSON_BUFFER_SIZE b1 (spanAttrJson env a)).bind fun b2 =>
    appendAttrList env rest b2 false

/-- The serialization of one (completed) span inside the span loop of
`createTracePayload`: optional separating comma, ids, optional parent id,
name/times/kind, optional attribute array, closing brace. -/
def appendOneSpan (env : Env) (buf : String) (s : Span) (firstSpan : Bool) : Option String :=
  (if firstSpan then some buf else appendToBuffer JSON_BUFFER_SIZE buf ",").bind fun b0 =>
  (appendToBuffer JSON_BUFFER_SIZE b0
    ("\x7b\"traceId\":\"" ++ hex16 s.traceId0 ++ hex16 s.traceId1 ++ "\",\"spanId\":\"" ++
      hex16 s.spanId ++ "\",")).bind fun b1 =>
  (if s.parentSpanId ≠ 0 then
      appendToBuffer JSON_BUFFER_SIZE b1 ("\"parentSpanId\":\"" ++ hex16 s.parentSpanId ++ "\",")
    else some b1).bind fun b2 =>
  (appendToBuffer JSON_BUFFER_SIZE b2
    ("\"name\":\"" ++ s.name ++ "\",\"startTimeUnixNano\":\"" ++ toString s.startTimeNanos ++
      "\",\"endTimeUnixNano\":\"" ++ toString s.endTimeNanos ++
      "\",\"kind\":\"SPAN_KIND_INTERNAL\"")).bind fun b3 =>
  (if s.attributes.length > 0 then
      (appendToBuffer JSON_BUFFER_SIZE b3 ",\"attributes\":[").bind fun b4 =>
      (appendAttrList env s.attributes b4 true).bind fun b5 =>
      appendToBuffer JSON_BUFFER_SIZE b5 "]"
    else some b3).bind fun b6 =>
  appendToBuffer JSON_BUFFER_SIZE b6 "\x7d"

/-- The span loop of `createTracePayload`
(`for (i = 0; i < spanCount && spansSent < spansToSend; i++)`): skips
active/unfinished spans, serializes a completed span and — only after all its
writes succeeded — marks it with the removal sentinel
(`spans[i].endTimeNanos = 1`), counting it in `spansSent`.  Returns the
buffer outcome together with the (partially) marked span list; on a write
failure the current span is left unmarked and the remaining spans
untouched, exactly as in the source where the function returns `false`
mid-loop. -/
def appendSpanList (env : Env) : List Span → String → Bool → Nat → Nat → Option String × List Span
  | [], buf, _, _, _ => (some buf, [])
  | s :: rest, buf, firstSpan, sent, toSend =>
    if sent ≥ toSend then (some buf, s :: rest)
    else if s.isActive || s.endTimeNanos == 0 then
      let r := appendSpanList env rest buf firstSpan sent toSend
      (r.1, s :: r.2)
    else
      match appendOneSpan env buf s firstSpan with
      | none => (none, s :: rest)
      | some b =>
        let r := appendSpanList env rest b false (sent + 1) toSend
        (r.1, { s with endTimeNanos := 1 } :: r.2)

/-- The batch-size computation at the head of `createTracePayload`:
`spansToSend = min(completed, MAX_SPANS_PER_BATCH)` then, when the average
attribute density over completed spans exceeds 15, the density-based
reduction with floor 3.  The float comparison
`(float)totalAttributes / completedSpanCount > 15.0` is exact for these
ranges (`totalAttributes ≤ 500`, `completedSpanCount ≤ 50`: the quotient is
at least 1/50 away from 15 whenever it differs, far beyond rounding error),
so it is `15 * completed < totalAttributes`; likewise the truncation
`(int)avgAttributesPerSpan` is the integer quotient.  `totalCompletedAttrs`
is the attribute-counting loop over completed spans. -/
def totalCompletedAttrs (spans : List Span) : Nat :=
  ((spans.filter isCompletedSpan).map (fun s => s.attributes.length)).sum

def spansToSendOf (spans : List Span) : Nat :=
  if 15 * countCompleted spans < totalCompletedAttrs spans then
    min (min (countCompleted spans) MAX_SPANS_PER_BATCH)
      (max 3 ((3000 / 100) / max 1 (totalCompletedAttrs spans / countCompleted spans)))
  else min (countCompleted spans) MAX_SPANS_PER_BATCH

/-- createTracePayload: returns the rendered document (or `none` on
"no completed spans" / buffer overflow) together with the span array as
left behind by the marking done inside the serialization loop.  The NULL
checks on `serviceName`/`serviceVersion` at its head are unreachable in the
model (strings are never NULL).  `tracePayloadHeader` is the straight-line
chain of header writes preceding the span loop. -/
def tracePayloadHeader (env : Env) : Option String :=
  (appendToBuffer JSON_BUFFER_SIZE "" "\x7b\"resourceSpans\":[\x7b\"resource\":\x7b\"attributes\":[").bind fun b1 =>
  (appendToBuffer JSON_BUFFER_SIZE b1
    ("\x7b\"key\":\"service.name\",\"value\":\x7b\"stringValue\":\"" ++ env.serviceName ++ "\"\x7d\x7d,")).bind fun b2 =>
  (appendToBuffer JSON_BUFFER_SIZE b2
    ("\x7b\"key\":\"service.version\",\"value\":\x7b\"stringValue\":\"" ++ env.serviceVersion ++ "\"\x7d\x7d,")).bind fun b3 =>
  (appendToBuffer JSON_BUFFER_SIZE b3
    ("\x7b\"key\":\"wifi.ssid\",\"value\":\x7b\"stringValue\":\"" ++ env.wifiSsid ++ "\"\x7d\x7d")).bind fun b4 =>
  appendToBuffer JSON_BUFFER_SIZE b4
    "]\x7d,\"scopeSpans\":[\x7b\"scope\":\x7b\"name\":\"iototeldemo\"\x7d,\"spans\":["

def createTracePayload (env : Env) (spans : List Span) : Option String × List Span :=
  if countCompleted spans = 0 then (none, spans)
  else
    match tracePayloadHeader env with
    | none => (none, spans)
    | some b =>
      match appendSpanList env spans b true 0 (spansToSendOf spans) with
      | (none, spans') => (none, spans')
      | (some b', spans') => (appendToBuffer JSON_BUFFER_SIZE b' "]\x7d]\x7d]\x7d", spans')

/-- removeMarkedSpans: the stable in-place compaction keeping every span
except those with `!isActive && endTimeNanos == 1`, preserving order. -/
def removeMarkedSpans (spans : List Span) : List Span :=
  spans.filter (fun s => !(!s.isActive && s.endTimeNanos == 1))

/-- The "mark sent spans for cleanup" loop on the success path of
`sendTraces`: sets `spanId = 0` on completed spans, breaking once
`MAX_SPANS_PER_BATCH` have been processed. -/
def markSentSpans : List Span → Nat → List Span
  | [], _ => []
  | s :: rest, moved =>
    if !s.isActive && s.endTimeNanos != 0 then
      if moved + 1 ≥ MAX_SPANS_PER_BATCH then { s with spanId := 0 } :: rest
      else { s with spanId := 0 } :: markSentSpans rest (moved + 1)
    else s :: markSentSpans rest moved

/-- sendTraces: early success when no completed span exists, endpoint check,
payload creation (whose marking side effect persists even on failure), one
POST consuming one status from the transport stream, and on HTTP 2xx the
mark/compact pass followed by the recursive drain call when completed spans
remain (whose boolean result is discarded — the outer call returns
`true`). -/
def sendTraces (env : Env) (st : OTelState) (statuses : List Int) : Bool × OTelState × List Int :=
  if !(st.spans.any isCompletedSpan) then (true, st, statuses)
  else if env.tracesEndpoint.isEmpty then
    (false, { st with lastErrorMessage := "No endpoint specified" }, statuses)
  else
    match createTracePayload env st.spans with
    | (none, spans') =>
      (false, { st with spans := spans', lastErrorMessage := "Failed to create trace payload" }, statuses)
    | (some _payload, spans') =>
      match statuses with
      | [] =>
        (false,
          { st with spans := spans', lastHttpCode := 0,
                    lastErrorMessage := env.errorToString 0 },
          [])
      | httpCode :: rest =>
        if 200 ≤ httpCode ∧ httpCode < 300 then
          let spans2 := markSentSpans spans' 0
          let spans3 := removeMarkedSpans spans2
          let st2 := { st with spans := spans3, lastHttpCode := httpCode }
          if spans3.any isCompletedSpan then
            let r := sendTraces env st2 rest
            (true, r.2.1, r.2.2)
          else (true, st2, rest)
        else
          (false,
            { st with spans := spans', lastHttpCode := httpCode,
                      lastErrorMessage := env.errorToString httpCode },
            rest)

/-- sendMetrics: empty-batch rejection, two WiFi checks around payload
creation, one POST, then the unconditional `metricCount = 0` reset and the
2xx success test.  On the failure branch the error message is the response
body, or "HTTP Error n" when that body is empty. -/
def sendMetrics (env : Env) (st : OTelState) (statuses : List Int) : Bool × OTelState × List Int :=
  if st.metrics.length = 0 then
    (false, { st with lastErrorMessage := "No metrics to send" }, statuses)
  else if !env.wifiConnected then
    (false, { st with lastErrorMessage := "WiFi not connected", lastHttpCode := 0 }, statuses)
  else
    match createBatchPayload env st.metrics with
    | none =>
      (false, { st with lastErrorMessage := "Failed to create payload (buffer overflow)" }, statuses)
    | some _payload =>
      if !env.wifiStillConnected then
        (false, { st with lastErrorMessage := "WiFi disconnected before send", lastHttpCode := 0 }, statuses)
      else
        match statuses with
        | [] =>
          (false,
            { st with lastHttpCode := 0,
                      lastErrorMessage :=
                        (if (env.responseBody 0).isEmpty then "HTTP Error " ++ toString (0 : Int)
                         else env.responseBody 0),
                      metrics := [] },
            [])
        | httpCode :: rest =>
          if httpCode < 200 ∨ 300 ≤ httpCode then
            (false,
              { st with lastHttpCode := httpCode,
                        lastErrorMessage :=
                          (if (env.responseBody httpCode).isEmpty then
                            "HTTP Error " ++ toString httpCode
                           else env.responseBody httpCode),
                        metrics := [] },
              rest)
          else
            (true,
              { st with lastHttpCode := httpCode, lastErrorMessage := "None",
                        metrics := [] },
              rest)

/-- addMetric: bounded append. -/
def addMetric (st : OTelState) (name : String) (value : Float) (ts : Nat) : Bool × OTelState :=
  if st.metrics.length ≥ MAX_METRICS then (false, st)
  else (true, { st with metrics := st.metrics ++ [⟨name, value, ts⟩] })

/-- The force-end loop of `cleanupOldSpans`
(`for (i = 0; i < spanCount && spanCount - activeEnded > MAX_SPANS / 2; i++)`):
walks the store in creation order, ending active spans (end timestamp :=
current time, `activeSpanCount--`) and counting them in `activeEnded`, until
the continue-condition fails.  `total` is the (unchanging) `spanCount`. -/
def forceEndSpans (now : Nat) (total : Nat) : List Span → Nat → Nat → List Span × Nat × Nat
  | [], activeEnded, asc => ([], activeEnded, asc)
  | s :: rest, activeEnded, asc =>
    if total - activeEnded ≤ MAX_SPANS / 2 then (s :: rest, activeEnded, asc)
    else if s.isActive then
      let r := forceEndSpans now total rest (activeEnded + 1) (dec8 asc)
      ({ s with isActive := false, endTimeNanos := now } :: r.1, r.2.1, r.2.2)
    else
      let r := forceEndSpans now total rest activeEnded asc
      (s :: r.1, r.2.1, r.2.2)

/-- cleanupOldSpans: at ≥ 60% occupancy, export; if still ≥ 60%, remove every
non-active span (aggressive compaction, guarded by there being at least
one); if then ≥ 80%, force-end the oldest active spans and, when any were
ended, export once more.  The boolean results of both `sendTraces()` calls
are discarded; their state changes persist. -/
def cleanupOldSpans (env : Env) (st : OTelState) (statuses : List Int) : OTelState × List Int :=
  if st.spans.length ≥ MAX_SPANS * 60 / 100 then
    let r1 := sendTraces env st statuses
    let st1 := r1.2.1
    let sts1 := r1.2.2
    if st1.spans.length ≥ MAX_SPANS * 60 / 100 then
      let completedCount := (st1.spans.filter (fun s => !s.isActive)).length
      let st2 :=
        if 0 < completedCount then { st1 with spans := st1.spans.filter (fun s => s.isActive) }
        else st1
      if st2.spans.length ≥ MAX_SPANS * 80 / 100 then
        let r2 := forceEndSpans env.now st2.spans.length st2.spans 0 st2.activeSpanCount
        let st3 := { st2 with spans := r2.1, activeSpanCount := r2.2.2 }
        if 0 < r2.2.1 then
          let r3 := sendTraces env st3 sts1
          (r3.2.1, r3.2.2)
        else (st3, sts1)
      else (st2, sts1)
    else (st1, sts1)
  else (st, statuses)

/-- startSpan: cleanup pass at ≥ 75% of capacity (the integer expression
`MAX_SPANS * 3 / 4 = 37`), capacity rejection returning the sentinel id 0,
otherwise allocation of a fresh Active span (name truncated to 31
characters by `strncpy`, trace id copied from the current trace, start
timestamp from the time provider).  The generated random span id is the
injected `newId`. -/
def startSpan (env : Env) (st : OTelState) (name : String) (parentSpanId : Nat) (newId : Nat)
    (statuses : List Int) : Nat × OTelState × List Int :=
  let r0 :=
    if st.spans.length ≥ MAX_SPANS * 3 / 4 then cleanupOldSpans env st statuses
    else (st, statuses)
  let st1 := r0.1
  let sts1 := r0.2
  if st1.spans.length ≥ MAX_SPANS then (0, st1, sts1)
  else
    let span : Span :=
      { name := name.take 31, traceId0 := st1.currentTraceId0, traceId1 := st1.currentTraceId1,
        spanId := newId, parentSpanId := parentSpanId, startTimeNanos := env.now,
        endTimeNanos := 0, attributes := [], isActive := true }
    (newId,
      { st1 with spans := st1.spans ++ [span],
                 activeSpanCount := inc8 st1.activeSpanCount },
      sts1)

/-- The search-and-update loop of `endSpan`: finds the first span with the
given id; if it is not active the call is rejected, otherwise the span is
completed with the current time.  The third component records whether
`activeSpanCount--` was executed. -/
def endSpanGo (now : Nat) (spanId : Nat) : List Span → Bool × List Span × Bool
  | [] => (false, [], false)
  | s :: rest =>
    if s.spanId = spanId then
      if !s.isActive then (false, s :: rest, false)
      else (true, { s with isActive := false, endTimeNanos := now } :: rest, true)
    else
      let r := endSpanGo now spanId rest
      (r.1, s :: r.2.1, r.2.2)

/-- endSpan: rejects id 0, otherwise the search-and-update loop. -/
def endSpan (env : Env) (st : OTelState) (spanId : Nat) : Bool × OTelState :=
  if spanId = 0 then (false, st)
  else
    let r := endSpanGo env.now spanId st.spans
    (r.1,
      { st with spans := r.2.1,
                activeSpanCount :=
                  if r.2.2 then dec8 st.activeSpanCount else st.activeSpanCount })

/-- The shared search-and-append loop of the two `addSpanAttribute`
overloads (their bodies are identical except for the constructed
attribute): first span with the given id; rejected when not active or when
the per-span attribute cap is reached, otherwise the attribute is appended. -/
def addAttrGo (attr : SpanAttribute) (spanId : Nat) : List Span → Bool × List Span
  | [] => (false, [])
  | s :: rest =>
    if s.spanId = spanId then
      if !s.isActive then (false, s :: rest)
      else if s.attributes.length ≥ MAX_SPAN_ATTRS then (false, s :: rest)
      else (true, { s with attributes := s.attributes ++ [attr] } :: rest)
    else
      let r := addAttrGo attr spanId rest
      (r.1, s :: r.2)

/-- addSpanAttribute (string overload). -/
def addSpanAttributeStr (st : OTelState) (spanId : Nat) (key value : String) : Bool × OTelState :=
  if spanId = 0 then (false, st)
  else
    let r := addAttrGo { key := key, stringValue := value, doubleValue := 0, isString := true }
      spanId st.spans
    (r.1, { st with spans := r.2 })

/-- addSpanAttribute (double overload); the NULL `stringValue` is modelled
as `""`. -/
def addSpanAttributeNum (st : OTelState) (spanId : Nat) (key : String) (value : Float) :
    Bool × OTelState :=
  if spanId = 0 then (false, st)
  else
    let r := addAttrGo { key := key, stringValue := "", doubleValue := value, isString := false }
      spanId st.spans
    (r.1, { st with spans := r.2 })

/-- getSpanStats: total, active, and the uint8 difference
`spanCount - activeSpanCount`. -/
def getSpanStats (st : OTelState) : Nat × Nat × Nat :=
  (st.spans.length, st.activeSpanCount, sub8 st.spans.length st.activeSpanCount)

/-! Specification-side descriptions, used to state properties of the loops
above.  They are deliberately written as direct structural recursions so the
theorems relating them to the loop embeddings have content. -/

/-- Mark the first `k` completed spans of a list with the PendingRemoval
sentinel (`endTimeNanos := 1`), leaving everything else untouched. -/
def markFirstCompleted : Nat → List Span → List Span
  | _, [] => []
  | 0, l => l
  | k + 1, s :: rest =>
    if isCompletedSpan s then { s with endTimeNanos := 1 } :: markFirstCompleted k rest
    else s :: markFirstCompleted (k + 1) rest

/-- Force-close the first `k` active spans of a list (in list order, which is
creation order), giving each the end timestamp `now`. -/
def forceEndFirst (now : Nat) : Nat → List Span → List Span
  | _, [] => []
  | 0, l => l
  | k + 1, s :: rest =>
    if s.isActive then
      { s with isActive := false, endTimeNanos := now } :: forceEndFirst now k rest
    else s :: forceEndFirst now (k + 1) rest

/-- The store invariant: the `activeSpanCount` counter agrees with the number
of stored spans whose `isActive` flag is set, and both fixed-capacity buffers
are within bounds. -/
def WF (st : OTelState) : Prop :=
  st.activeSpanCount = countActive st.spans ∧
  st.spans.length ≤ MAX_SPANS ∧
  st.metrics.length ≤ MAX_METRICS

/-! Basic counting lemmas. -/

theorem countActive_cons (s : Span) (l : List Span) :
    countActive (s :: l) = (if s.isActive then 1 else 0) + countActive l := by
  simp only [countActive, List.filter_cons]
  split <;> simp [Nat.add_comm]

theorem countCompleted_cons (s : Span) (l : List Span) :
    countCompleted (s :: l) = (if isCompletedSpan s then 1 else 0) + countCompleted l := by
  simp only [countCompleted, List.filter_cons]
  split <;> simp [Nat.add_comm]

theorem countMarked_cons (s : Span) (l : List Span) :
    countMarked (s :: l) = (if isMarkedSpan s then 1 else 0) + countMarked l := by
  simp only [countMarked, List.filter_cons]
  split <;> simp [Nat.add_comm]

theorem countActive_le_length (l : List Span) : countActive l ≤ l.length :=
  (List.filter_sublist l).length_le

theorem countActive_append (l1 l2 : List Span) :
    countActive (l1 ++ l2) = countActive l1 + countActive l2 := by
  simp [countActive, List.filter_append]

theorem countCompleted_pos_iff_any (l : List Span) :
    0 < countCompleted l ↔ l.any isCompletedSpan = true := by
  simp [countCompleted, List.any_eq_true, List.length_pos, List.filter_eq_nil_iff]

theorem countMarked_le_countCompleted (l : List Span) :
    countMarked l ≤ countCompleted l := by
  induction l with
  | nil => simp [countMarked, countCompleted]
  | cons s rest ih =>
    rw [countMarked_cons, countCompleted_cons]
    have : isMarkedSpan s = true → isCompletedSpan s = true := by
      simp [isMarkedSpan, isCompletedSpan]
      intro h1 h2
      simp [h1, h2]
    by_cases h : isMarkedSpan s = true
    · simp [h, this h]; omega
    · simp at h
      simp [h]
      split <;> omega

/-! The append chain never overflows the 4096-byte buffer. -/

theorem appendToBuffer_some_length {m : Nat} {buf c b' : String}
    (h : appendToBuffer m buf c = some b') : b'.length < m := by
  unfold appendToBuffer at h
  split at h
  · simp at h
  · next hlt =>
    rw [Option.some.injEq] at h
    subst h
    rw [String.length_append]
    omega

theorem createBatchPayload_length {env : Env} {metrics : List MetricPoint} {doc : String}
    (h : createBatchPayload env metrics = some doc) : doc.length < JSON_BUFFER_SIZE := by
  unfold createBatchPayload at h
  simp only [Option.bind_eq_some] at h
  obtain ⟨b1, _, b2, _, b3, _, b4, _, b5, _, b6, _, h7⟩ := h
  exact appendToBuffer_some_length h7

theorem createTracePayload_length {env : Env} {spans spans' : List Span} {doc : String}
    (h : createTracePayload env spans = (some doc, spans')) : doc.length < JSON_BUFFER_SIZE := by
  unfold createTracePayload at h
  split at h
  · simp at h
  · split at h
    · simp at h
    · split at h
      · simp at h
      · next b b'' spans'' heq =>
        rw [Prod.mk.injEq] at h
        exact appendToBuffer_some_length h.1

/-! Properties of the span predicates under the record updates performed by
the code. -/

theorem isActive_of_marked (s : Span) (h : isMarkedSpan s = true) : s.isActive = false := by
  simp [isMarkedSpan] at h
  exact h.1

theorem isCompleted_of_marked (s : Span) (h : isMarkedSpan s = true) :
    isCompletedSpan s = true := by
  simp [isMarkedSpan] at h
  simp [isCompletedSpan, h.1, h.2]

theorem isCompletedSpan_of_not_skip {s : Span}
    (h : (s.isActive || s.endTimeNanos == 0) = false) : isCompletedSpan s = true := by
  simp at h
  simp [isCompletedSpan, h.1, h.2]

/-! The span serialization loop: shape preservation and the relation to the
specification-side `markFirstCompleted`. -/

theorem appendSpanList_shape (env : Env) :
    ∀ (l : List Span) (buf : String) (first : Bool) (sent toSend : Nat),
      (appendSpanList env l buf first sent toSend).2.length = l.length ∧
      countActive (appendSpanList env l buf first sent toSend).2 = countActive l := by
  intro l
  induction l with
  | nil => intro buf first sent toSend; simp [appendSpanList]
  | cons s rest ih =>
    intro buf first sent toSend
    rw [appendSpanList]
    by_cases hge : sent ≥ toSend
    · rw [if_pos hge]
      exact ⟨rfl, rfl⟩
    · rw [if_neg hge]
      by_cases hskip : (s.isActive || s.endTimeNanos == 0) = true
      · rw [if_pos hskip]
        have h := ih buf first sent toSend
        constructor
        · simpa using h.1
        · simp only [countActive_cons]
          simpa [countActive_cons] using h.2
      · rw [if_neg hskip]
        cases hos : appendOneSpan env buf s first with
        | none => simp
        | some b =>
          have h := ih b false (sent + 1) toSend
          constructor
          · simpa using h.1
          · simp only [countActive_cons]
            simpa [countActive_cons] using h.2

theorem markFirstCompleted_zero (l : List Span) : markFirstCompleted 0 l = l := by
  cases l <;> rfl

theorem appendSpanList_marks (env : Env) :
    ∀ (l : List Span) (buf : String) (first : Bool) (sent toSend : Nat),
      (appendSpanList env l buf first sent toSend).1.isSome = true →
      (appendSpanList env l buf first sent toSend).2 = markFirstCompleted (toSend - sent) l := by
  intro l
  induction l with
  | nil => intro buf first sent toSend _; simp [appendSpanList, markFirstCompleted]
  | cons s rest ih =>
    intro buf first sent toSend h
    rw [appendSpanList] at h ⊢
    by_cases hge : sent ≥ toSend
    · rw [if_pos hge]
      have h0 : toSend - sent = 0 := by omega
      rw [h0, markFirstCompleted_zero]
    · rw [if_neg hge] at h ⊢
      have hk : toSend - sent = (toSend - (sent + 1)) + 1 := by omega
      by_cases hskip : (s.isActive || s.endTimeNanos == 0) = true
      · rw [if_pos hskip] at h ⊢
        have hnc : isCompletedSpan s = false := by
          simp [isCompletedSpan]
          simp at hskip
          rcases hskip with hA | hE
          · intro hA2; rw [hA] at hA2; cases hA2
          · intro _; exact hE
        rw [hk, markFirstCompleted, hnc]
        simp only [Bool.false_eq_true, if_false]
        have h2 := ih buf first sent toSend (by simpa using h)
        rw [← hk]
        simpa using h2
      · rw [if_neg hskip] at h ⊢
        have hc : isCompletedSpan s = true :=
          isCompletedSpan_of_not_skip (by simpa using hskip)
        cases hos : appendOneSpan env buf s first with
        | none => rw [hos] at h; simp at h
        | some b =>
          rw [hos] at h
          simp only [] at h ⊢
          rw [hk, markFirstCompleted, hc]
          simp only [if_true]
          have h2 := ih b false (sent + 1) toSend (by simpa using h)
          simpa using h2

/-! The dispatch at the head of `createTracePayload`. -/

theorem spansToSendOf_pos {spans : List Span} (h : 0 < countCompleted spans) :
    0 < spansToSendOf spans := by
  rw [spansToSendOf]
  split
  · have h3 : 0 < max 3 ((3000 / 100) / max 1 (totalCompletedAttrs spans / countCompleted spans)) := by
      omega
    simp only [MAX_SPANS_PER_BATCH]
    omega
  · simp only [MAX_SPANS_PER_BATCH]
    omega

theorem createTracePayload_some {env : Env} {spans : List Span} {p : String}
    {spans' : List Span} (h : createTracePayload env spans = (some p, spans')) :
    0 < countCompleted spans ∧ spans' = markFirstCompleted (spansToSendOf spans) spans := by
  rw [createTracePayload] at h
  by_cases h0 : countCompleted spans = 0
  · rw [if_pos h0] at h
    simp at h
  · rw [if_neg h0] at h
    cases hh : tracePayloadHeader env with
    | none => rw [hh] at h; simp at h
    | some b =>
      rw [hh] at h
      simp only [] at h
      cases hal : appendSpanList env spans b true 0 (spansToSendOf spans) with
      | mk r1 r2 =>
        rw [hal] at h
        cases r1 with
        | none => simp at h
        | some b' =>
          simp only [Prod.mk.injEq] at h
          have hm := appendSpanList_marks env spans b true 0 (spansToSendOf spans)
            (by rw [hal]; rfl)
          rw [hal] at hm
          refine ⟨by omega, ?_⟩
          rw [← h.2]
          simpa using hm

theorem createTracePayload_shape (env : Env) (spans : List Span) :
    (createTracePayload env spans).2.length = spans.length ∧
    countActive (createTracePayload env spans).2 = countActive spans := by
  rw [createTracePayload]
  by_cases h0 : countCompleted spans = 0
  · rw [if_pos h0]
    exact ⟨rfl, rfl⟩
  · rw [if_neg h0]
    cases hh : tracePayloadHeader env with
    | none => exact ⟨rfl, rfl⟩
    | some b =>
      simp only []
      have hs := appendSpanList_shape env spans b true 0 (spansToSendOf spans)
      cases hal : appendSpanList env spans b true 0 (spansToSendOf spans) with
      | mk r1 r2 =>
        rw [hal] at hs
        cases r1 with
        | none => simpa using hs
        | some b' => simpa using hs

/-! The mark/compact pass on the success path of `sendTraces`. -/

theorem markSentSpans_counts :
    ∀ (l : List Span) (m : Nat),
      countCompleted (markSentSpans l m) = countCompleted l ∧
      countMarked (markSentSpans l m) = countMarked l ∧
      countActive (markSentSpans l m) = countActive l ∧
      (markSentSpans l m).length = l.length := by
  intro l
  induction l with
  | nil => intro m; simp [markSentSpans]
  | cons s rest ih =>
    intro m
    rw [markSentSpans]
    by_cases hc : (!s.isActive && s.endTimeNanos != 0) = true
    · rw [if_pos hc]
      by_cases hb : m + 1 ≥ MAX_SPANS_PER_BATCH
      · rw [if_pos hb]
        refine ⟨?_, ?_, ?_, ?_⟩ <;>
          simp [countCompleted_cons, countMarked_cons, countActive_cons, isCompletedSpan,
            isMarkedSpan]
      · rw [if_neg hb]
        have h := ih (m + 1)
        refine ⟨?_, ?_, ?_, ?_⟩ <;>
          simp [countCompleted_cons, countMarked_cons, countActive_cons, isCompletedSpan,
            isMarkedSpan, h.1, h.2.1, h.2.2.1, h.2.2.2]
    · rw [if_neg hc]
      have h := ih m
      refine ⟨?_, ?_, ?_, ?_⟩ <;>
        simp [countCompleted_cons, countMarked_cons, countActive_cons, h.1, h.2.1, h.2.2.1,
          h.2.2.2]

theorem removeMarkedSpans_eq_filter (l : List Span) :
    removeMarkedSpans l = l.filter (fun s => !isMarkedSpan s) := by
  simp [removeMarkedSpans, isMarkedSpan]

theorem removeMarked_countCompleted (l : List Span) :
    countCompleted (removeMarkedSpans l) = countCompleted l - countMarked l := by
  rw [removeMarkedSpans_eq_filter]
  induction l with
  | nil => simp [countCompleted, countMarked]
  | cons s rest ih =>
    rw [List.filter_cons]
    have hle := countMarked_le_countCompleted rest
    by_cases hm : isMarkedSpan s = true
    · simp only [hm, Bool.not_true, Bool.false_eq_true, if_false]
      rw [ih, countCompleted_cons, countMarked_cons, isCompleted_of_marked s hm, hm]
      simp only [if_true]
      omega
    · have hm' : isMarkedSpan s = false := by simpa using hm
      simp only [hm', Bool.not_false, if_true]
      rw [countCompleted_cons, countCompleted_cons, ih, countMarked_cons, hm']
      simp only [Bool.false_eq_true, if_false]
      split <;> omega

theorem removeMarked_countActive (l : List Span) :
    countActive (removeMarkedSpans l) = countActive l := by
  rw [removeMarkedSpans_eq_filter]
  induction l with
  | nil => rfl
  | cons s rest ih =>
    rw [List.filter_cons]
    by_cases hm : isMarkedSpan s = true
    · have ha := isActive_of_marked s hm
      simp only [hm, Bool.not_true, Bool.false_eq_true, if_false]
      rw [ih, countActive_cons, ha]
      simp
    · have hm' : isMarkedSpan s = false := by simpa using hm
      simp only [hm', Bool.not_false, if_true]
      rw [countActive_cons, countActive_cons, ih]

theorem removeMarked_length_le (l : List Span) :
    (removeMarkedSpans l).length ≤ l.length :=
  (List.filter_sublist l).length_le

/-! Counting through `markFirstCompleted`. -/

theorem markFirstCompleted_counts :
    ∀ (l : List Span) (k : Nat),
      countCompleted (markFirstCompleted k l) = countCompleted l ∧
      countActive (markFirstCompleted k l) = countActive l ∧
      (markFirstCompleted k l).length = l.length := by
  intro l
  induction l with
  | nil => intro k; simp [markFirstCompleted]
  | cons s rest ih =>
    intro k
    cases k with
    | zero => rw [markFirstCompleted_zero]; exact ⟨rfl, rfl, rfl⟩
    | succ k' =>
      rw [markFirstCompleted]
      by_cases hc : isCompletedSpan s = true
      · rw [if_pos hc]
        have h := ih k'
        have hcm : isCompletedSpan { s with endTimeNanos := 1 } = true := by
          simp [isCompletedSpan] at hc ⊢
          exact hc.1
        refine ⟨?_, ?_, ?_⟩
        · rw [countCompleted_cons, countCompleted_cons, h.1, hcm, hc]
        · rw [countActive_cons, countActive_cons, h.2.1]
        · simp [h.2.2]
      · rw [if_neg hc]
        have h := ih (k' + 1)
        exact ⟨by rw [countCompleted_cons, countCompleted_cons, h.1],
          by rw [countActive_cons, countActive_cons, h.2.1],
          by simp [h.2.2]⟩

theorem markFirstCompleted_marked_pos :
    ∀ (l : List Span) (k : Nat), 0 < k → 0 < countCompleted l →
      0 < countMarked (markFirstCompleted k l) := by
  intro l
  induction l with
  | nil => intro k hk h; simp [countCompleted] at h
  | cons s rest ih =>
    intro k hk h
    cases k with
    | zero => omega
    | succ k' =>
      rw [markFirstCompleted]
      by_cases hc : isCompletedSpan s = true
      · rw [if_pos hc]
        have hm : isMarkedSpan { s with endTimeNanos := 1 } = true := by
          simp [isCompletedSpan] at hc
          simp [isMarkedSpan, hc.1]
        rw [countMarked_cons, hm]
        simp
      · rw [if_neg hc]
        have hc' : isCompletedSpan s = false := by simpa using hc
        have h2 : 0 < countCompleted rest := by
          rw [countCompleted_cons, hc'] at h
          simpa using h
        have h3 := ih (k' + 1) (by omega) h2
        rw [countMarked_cons]
        cases hm : isMarkedSpan s
        · simpa using h3
        · simp [hm]

/-- One successful export cycle strictly reduces the number of completed
spans: payload creation marks at least one completed span with the sentinel,
and the compaction pass removes every marked span. -/
theorem successfulCycle_decreases {env : Env} {spans : List Span} {p : String}
    {spans' : List Span} (h : createTracePayload env spans = (some p, spans')) :
    countCompleted (removeMarkedSpans (markSentSpans spans' 0)) < countCompleted spans := by
  obtain ⟨hpos, hmark⟩ := createTracePayload_some h
  have hts := spansToSendOf_pos hpos
  have hmc := markFirstCompleted_counts spans (spansToSendOf spans)
  have hmp := markFirstCompleted_marked_pos spans (spansToSendOf spans) hts hpos
  have hs := markSentSpans_counts spans' 0
  have h1 : countCompleted (markSentSpans spans' 0) = countCompleted spans := by
    rw [hs.1, hmark, hmc.1]
  have h2 : 0 < countMarked (markSentSpans spans' 0) := by
    rw [hs.2.1, hmark]
    exact hmp
  have h3 := countMarked_le_countCompleted (markSentSpans spans' 0)
  rw [removeMarked_countCompleted]
  omega

theorem sendTraces_state (env : Env) :
    ∀ (sts : List Int) (st : OTelState),
      (sendTraces env st sts).2.1.activeSpanCount = st.activeSpanCount ∧
      (sendTraces env st sts).2.1.metrics = st.metrics ∧
      (sendTraces env st sts).2.1.currentTraceId0 = st.currentTraceId0 ∧
      (sendTraces env st sts).2.1.currentTraceId1 = st.currentTraceId1 ∧
      countActive (sendTraces env st sts).2.1.spans = countActive st.spans ∧
      (sendTraces env st sts).2.1.spans.length ≤ st.spans.length := by
  intro sts
  induction sts with
  | nil =>
    intro st
    rw [sendTraces]
    by_cases hany : st.spans.any isCompletedSpan = true
    · simp only [hany, Bool.not_true, Bool.false_eq_true, if_false]
      by_cases hep : env.tracesEndpoint.isEmpty = true
      · simp only [hep, if_true]
        simp
      · simp only [hep, Bool.false_eq_true, if_false]
        have hshape := createTracePayload_shape env st.spans
        cases hcp : createTracePayload env st.spans with
        | mk r1 r2 =>
          rw [hcp] at hshape
          cases r1 with
          | none =>
            dsimp only
            exact ⟨rfl, rfl, rfl, rfl, by simpa using hshape.2,
              le_of_eq (by simpa using hshape.1)⟩
          | some p =>
            dsimp only
            exact ⟨rfl, rfl, rfl, rfl, by simpa using hshape.2,
              le_of_eq (by simpa using hshape.1)⟩
    · have hany' : st.spans.any isCompletedSpan = false := by simpa using hany
      simp only [hany', Bool.not_false, if_true]
      simp
  | cons c rest ih =>
    intro st
    rw [sendTraces]
    by_cases hany : st.spans.any isCompletedSpan = true
    · simp only [hany, Bool.not_true, Bool.false_eq_true, if_false]
      by_cases hep : env.tracesEndpoint.isEmpty = true
      · simp only [hep, if_true]
        simp
      · simp only [hep, Bool.false_eq_true, if_false]
        have hshape := createTracePayload_shape env st.spans
        cases hcp : createTracePayload env st.spans with
        | mk r1 r2 =>
          rw [hcp] at hshape
          cases r1 with
          | none =>
            dsimp only
            exact ⟨rfl, rfl, rfl, rfl, by simpa using hshape.2,
              le_of_eq (by simpa using hshape.1)⟩
          | some p =>
            dsimp only
            by_cases hok : (200 ≤ c ∧ c < 300)
            · rw [if_pos hok]
              have hms := markSentSpans_counts r2 0
              have hca : countActive (removeMarkedSpans (markSentSpans r2 0)) =
                  countActive st.spans := by
                rw [removeMarked_countActive, hms.2.2.1]
                simpa using hshape.2
              have hlen : (removeMarkedSpans (markSentSpans r2 0)).length ≤ st.spans.length := by
                have h1 := removeMarked_length_le (markSentSpans r2 0)
                have h2 := hms.2.2.2
                have h3 : r2.length = st.spans.length := by simpa using hshape.1
                omega
              by_cases hmore : (removeMarkedSpans (markSentSpans r2 0)).any isCompletedSpan = true
              · rw [if_pos hmore]
                have h2 := ih { st with spans := removeMarkedSpans (markSentSpans r2 0),
                                        lastHttpCode := c }
                refine ⟨?_, ?_, ?_, ?_, ?_, ?_⟩
                · simpa using h2.1
                · simpa using h2.2.1
                · simpa using h2.2.2.1
                · simpa using h2.2.2.2.1
                · have h5 := h2.2.2.2.2.1
                  dsimp only at h5
                  rw [h5]
                  exact hca
                · have h6 := h2.2.2.2.2.2
                  dsimp only at h6
                  exact le_trans h6 hlen
              · rw [if_neg hmore]
                exact ⟨rfl, rfl, rfl, rfl, hca, hlen⟩
            · rw [if_neg hok]
              exact ⟨rfl, rfl, rfl, rfl, by simpa using hshape.2,
                le_of_eq (by simpa using hshape.1)⟩
    · have hany' : st.spans.any isCompletedSpan = false := by simpa using hany
      simp only [hany', Bool.not_false, if_true]
      simp

/-! The force-end loop and the capacity-cleanup cascade. -/

theorem dec8_eq {a : Nat} (h1 : 1 ≤ a) (h2 : a ≤ 256) : dec8 a = a - 1 := by
  unfold dec8
  omega

theorem inc8_eq {a : Nat} (h : a ≤ 254) : inc8 a = a + 1 := by
  unfold inc8
  omega

theorem forceEndFirst_zero (now : Nat) (l : List Span) : forceEndFirst now 0 l = l := by
  cases l <;> rfl

theorem forceEndFirst_cons_inactive (now : Nat) (k : Nat) (s : Span) (rest : List Span)
    (h : s.isActive = false) :
    forceEndFirst now k (s :: rest) = s :: forceEndFirst now k rest := by
  cases k with
  | zero => rw [forceEndFirst_zero, forceEndFirst_zero]
  | succ k' =>
    rw [forceEndFirst, if_neg]
    simp [h]

theorem forceEndSpans_spec (now total : Nat) :
    ∀ (l : List Span) (ended asc : Nat),
      (forceEndSpans now total l ended asc).1 =
        forceEndFirst now (min (countActive l) (total - ended - MAX_SPANS / 2)) l ∧
      (forceEndSpans now total l ended asc).2.1 =
        ended + min (countActive l) (total - ended - MAX_SPANS / 2) ∧
      (forceEndSpans now total l ended asc).1.length = l.length := by
  intro l
  induction l with
  | nil =>
    intro ended asc
    rw [forceEndSpans]
    simp [countActive, forceEndFirst]
  | cons s rest ih =>
    intro ended asc
    rw [forceEndSpans]
    by_cases hstop : total - ended ≤ MAX_SPANS / 2
    · rw [if_pos hstop]
      have h0 : total - ended - MAX_SPANS / 2 = 0 := by omega
      rw [h0]
      simp [forceEndFirst_zero]
    · rw [if_neg hstop]
      by_cases ha : s.isActive = true
      · rw [if_pos ha]
        have h := ih (ended + 1) (dec8 asc)
        have hA : countActive (s :: rest) = countActive rest + 1 := by
          rw [countActive_cons, ha]
          simp [Nat.add_comm]
        have hB : total - ended - MAX_SPANS / 2 =
            (total - (ended + 1) - MAX_SPANS / 2) + 1 := by omega
        have hmin : min (countActive (s :: rest)) (total - ended - MAX_SPANS / 2) =
            min (countActive rest) (total - (ended + 1) - MAX_SPANS / 2) + 1 := by
          rw [hA, hB]
          omega
        refine ⟨?_, ?_, ?_⟩
        · rw [hmin, forceEndFirst, if_pos ha]
          dsimp only
          rw [h.1]
        · dsimp only
          rw [h.2.1, hmin]
          omega
        · dsimp only
          simp [h.2.2]
      · rw [if_neg ha]
        have ha' : s.isActive = false := by simpa using ha
        have h := ih ended asc
        have hA : countActive (s :: rest) = countActive rest := by
          rw [countActive_cons, ha']
          simp
        refine ⟨?_, ?_, ?_⟩
        · rw [hA, forceEndFirst_cons_inactive now _ s rest ha']
          dsimp only
          rw [h.1]
        · dsimp only
          rw [h.2.1, hA]
        · dsimp only
          simp [h.2.2]

theorem forceEndSpans_wf (now total : Nat) :
    ∀ (l : List Span) (ended asc : Nat), asc = countActive l → countActive l ≤ 256 →
      (forceEndSpans now total l ended asc).2.2 =
        countActive (forceEndSpans now total l ended asc).1 ∧
      (forceEndSpans now total l ended asc).1.length = l.length := by
  intro l
  induction l with
  | nil =>
    intro ended asc h1 h2
    rw [forceEndSpans]
    simpa using h1
  | cons s rest ih =>
    intro ended asc h1 h2
    rw [forceEndSpans]
    by_cases hstop : total - ended ≤ MAX_SPANS / 2
    · rw [if_pos hstop]
      exact ⟨h1, rfl⟩
    · rw [if_neg hstop]
      by_cases ha : s.isActive = true
      · rw [if_pos ha]
        have hA : countActive (s :: rest) = countActive rest + 1 := by
          rw [countActive_cons, ha]
          simp [Nat.add_comm]
        have hd : dec8 asc = countActive rest := by
          rw [dec8_eq (by omega) (by omega), h1, hA]
          omega
        have h := ih (ended + 1) (dec8 asc) hd (by omega)
        refine ⟨?_, ?_⟩
        · dsimp only
          rw [h.1, countActive_cons]
          simp
        · dsimp only
          simp [h.2]
      · rw [if_neg ha]
        have ha' : s.isActive = false := by simpa using ha
        have hA : countActive (s :: rest) = countActive rest := by
          rw [countActive_cons, ha']
          simp
        have h := ih ended asc (by rw [h1, hA]) (by omega)
        refine ⟨?_, ?_⟩
        · dsimp only
          rw [h.1, countActive_cons, ha']
          simp
        · dsimp only
          simp [h.2]

theorem countActive_filterActive (l : List Span) :
    countActive (l.filter (fun s => s.isActive)) = countActive l := by
  induction l with
  | nil => rfl
  | cons s rest ih =>
    rw [List.filter_cons]
    by_cases ha : s.isActive = true
    · simp only [ha, if_true]
      rw [countActive_cons, countActive_cons, ih]
    · have ha' : s.isActive = false := by simpa using ha
      simp only [ha', Bool.false_eq_true, if_false]
      rw [ih, countActive_cons, ha']
      simp

theorem sendTraces_wf (env : Env) (sts : List Int) (st : OTelState) (h : WF st) :
    WF (sendTraces env st sts).2.1 := by
  obtain ⟨hA, hS, hM⟩ := h
  obtain ⟨p1, p2, _, _, p5, p6⟩ := sendTraces_state env sts st
  refine ⟨?_, by omega, by rw [p2]; exact hM⟩
  rw [p1, hA, p5]

theorem cleanupOldSpans_state (env : Env) (st : OTelState) (sts : List Int) (hWF : WF st) :
    WF (cleanupOldSpans env st sts).1 ∧
    (cleanupOldSpans env st sts).1.spans.length ≤ st.spans.length ∧
    (cleanupOldSpans env st sts).1.metrics = st.metrics ∧
    (cleanupOldSpans env st sts).1.currentTraceId0 = st.currentTraceId0 ∧
    (cleanupOldSpans env st sts).1.currentTraceId1 = st.currentTraceId1 := by
  have hWF1 : WF (sendTraces env st sts).2.1 := sendTraces_wf env sts st hWF
  obtain ⟨p1, p2, p3, p4, p5, p6⟩ := sendTraces_state env sts st
  rw [cleanupOldSpans]
  dsimp only
  split
  case isFalse h60 => exact ⟨hWF, le_refl _, rfl, rfl, rfl⟩
  case isTrue h60 =>
  split
  case isFalse h60b => exact ⟨hWF1, p6, p2, p3, p4⟩
  case isTrue h60b =>
  -- abbreviate the post-export state
  generalize hst1 : (sendTraces env st sts).2.1 = st1 at *
  split
  case isTrue hcc =>
    -- aggressive compaction applied
    have hWF2 : WF { st1 with spans := st1.spans.filter (fun s => s.isActive) } := by
      obtain ⟨q1, q2, q3⟩ := hWF1
      refine ⟨?_, ?_, q3⟩
      · dsimp only
        rw [q1, countActive_filterActive]
      · dsimp only
        exact le_trans (List.filter_sublist st1.spans).length_le q2
    have hlen2 : (st1.spans.filter (fun s => s.isActive)).length ≤ st.spans.length :=
      le_trans (List.filter_sublist st1.spans).length_le p6
    split
    case isFalse h80 => exact ⟨hWF2, hlen2, p2, p3, p4⟩
    case isTrue h80 =>
      have hb : countActive (st1.spans.filter (fun s => s.isActive)) ≤ 256 := by
        have h1 := countActive_le_length (st1.spans.filter (fun s => s.isActive))
        have h2 := hWF2.2.1
        simp only [MAX_SPANS] at h2
        omega
      have hfe := forceEndSpans_wf env.now (st1.spans.filter (fun s => s.isActive)).length
        (st1.spans.filter (fun s => s.isActive)) 0 st1.activeSpanCount
        (by rw [hWF1.1, countActive_filterActive]) hb
      have hWF3 : WF { st1 with
          spans := (forceEndSpans env.now (st1.spans.filter (fun s => s.isActive)).length
            (st1.spans.filter (fun s => s.isActive)) 0 st1.activeSpanCount).1,
          activeSpanCount := (forceEndSpans env.now
            (st1.spans.filter (fun s => s.isActive)).length
            (st1.spans.filter (fun s => s.isActive)) 0 st1.activeSpanCount).2.2 } := by
        refine ⟨?_, ?_, hWF1.2.2⟩
        · dsimp only
          rw [hfe.1]
        · dsimp only
          rw [hfe.2]
          exact hWF2.2.1
      have hlen3 : (forceEndSpans env.now (st1.spans.filter (fun s => s.isActive)).length
          (st1.spans.filter (fun s => s.isActive)) 0 st1.activeSpanCount).1.length ≤
          st.spans.length := by
        rw [hfe.2]
        exact hlen2
      split
      case isFalse hfe0 => exact ⟨hWF3, hlen3, p2, p3, p4⟩
      case isTrue hfe0 =>
        have hq := sendTraces_state env (sendTraces env st sts).2.2 { st1 with
          spans := (forceEndSpans env.now (st1.spans.filter (fun s => s.isActive)).length
            (st1.spans.filter (fun s => s.isActive)) 0 st1.activeSpanCount).1,
          activeSpanCount := (forceEndSpans env.now
            (st1.spans.filter (fun s => s.isActive)).length
            (st1.spans.filter (fun s => s.isActive)) 0 st1.activeSpanCount).2.2 }
        refine ⟨sendTraces_wf env _ _ hWF3, ?_, ?_, ?_, ?_⟩
        · exact le_trans hq.2.2.2.2.2 hlen3
        · exact hq.2.1.trans p2
        · exact hq.2.2.1.trans p3
        · exact hq.2.2.2.1.trans p4
  case isFalse hcc =>
    split
    case isFalse h80 => exact ⟨hWF1, p6, p2, p3, p4⟩
    case isTrue h80 =>
      have hb : countActive st1.spans ≤ 256 := by
        have h1 := countActive_le_length st1.spans
        have h2 := hWF1.2.1
        simp only [MAX_SPANS] at h2
        omega
      have hfe := forceEndSpans_wf env.now st1.spans.length st1.spans 0 st1.activeSpanCount
        hWF1.1 hb
      have hWF3 : WF { st1 with
          spans := (forceEndSpans env.now st1.spans.length st1.spans 0 st1.activeSpanCount).1,
          activeSpanCount :=
            (forceEndSpans env.now st1.spans.length st1.spans 0 st1.activeSpanCount).2.2 } := by
        refine ⟨?_, ?_, hWF1.2.2⟩
        · dsimp only
          rw [hfe.1]
        · dsimp only
          rw [hfe.2]
          exact hWF1.2.1
      have hlen3 : (forceEndSpans env.now st1.spans.length st1.spans 0
          st1.activeSpanCount).1.length ≤ st.spans.length := by
        rw [hfe.2]
        exact p6
      split
      case isFalse hfe0 => exact ⟨hWF3, hlen3, p2, p3, p4⟩
      case isTrue hfe0 =>
        have hq := sendTraces_state env (sendTraces env st sts).2.2 { st1 with
          spans := (forceEndSpans env.now st1.spans.length st1.spans 0 st1.activeSpanCount).1,
          activeSpanCount :=
            (forceEndSpans env.now st1.spans.length st1.spans 0 st1.activeSpanCount).2.2 }
        refine ⟨sendTraces_wf env _ _ hWF3, ?_, ?_, ?_, ?_⟩
        · exact le_trans hq.2.2.2.2.2 hlen3
        · exact hq.2.1.trans p2
        · exact hq.2.2.1.trans p3
        · exact hq.2.2.2.1.trans p4

/-! The search-and-update loops of `endSpan` and `addSpanAttribute`. -/

theorem endSpanGo_cases (now spanId : Nat) :
    ∀ l : List Span,
      ((endSpanGo now spanId l).2.2 = false →
        (endSpanGo now spanId l).2.1 = l ∧ (endSpanGo now spanId l).1 = false) ∧
      ((endSpanGo now spanId l).2.2 = true →
        countActive (endSpanGo now spanId l).2.1 + 1 = countActive l ∧
        (endSpanGo now spanId l).2.1.length = l.length) := by
  intro l
  induction l with
  | nil => simp [endSpanGo]
  | cons s rest ih =>
    rw [endSpanGo]
    by_cases hid : s.spanId = spanId
    · rw [if_pos hid]
      by_cases ha : s.isActive = true
      · have hna : (!s.isActive) = false := by simp [ha]
        rw [hna]
        simp only [Bool.false_eq_true, if_false]
        constructor
        · intro hfl
          simp at hfl
        · intro _
          constructor
          · rw [countActive_cons, countActive_cons, ha]
            simp only [Bool.false_eq_true, if_false, if_true]
            simp
            omega
          · simp
      · have ha' : s.isActive = false := by simpa using ha
        have hna : (!s.isActive) = true := by simp [ha']
        rw [hna]
        simp only [if_true]
        constructor
        · intro _
          exact ⟨by trivial, by trivial⟩
        · intro hfl
          simp at hfl
    · rw [if_neg hid]
      dsimp only
      constructor
      · intro hfl
        have h := ih.1 hfl
        rw [h.1]
        exact ⟨rfl, h.2⟩
      · intro hfl
        have h := ih.2 hfl
        constructor
        · rw [countActive_cons, countActive_cons]
          omega
        · simp [h.2]

theorem addAttrGo_shape (attr : SpanAttribute) (spanId : Nat) :
    ∀ l : List Span,
      countActive (addAttrGo attr spanId l).2 = countActive l ∧
      (addAttrGo attr spanId l).2.length = l.length := by
  intro l
  induction l with
  | nil => simp [addAttrGo]
  | cons s rest ih =>
    rw [addAttrGo]
    by_cases hid : s.spanId = spanId
    · rw [if_pos hid]
      by_cases ha : s.isActive = true
      · have hna : (!s.isActive) = false := by simp [ha]
        rw [hna]
        simp only [Bool.false_eq_true, if_false]
        by_cases hcap : s.attributes.length ≥ MAX_SPAN_ATTRS
        · rw [if_pos hcap]
          exact ⟨rfl, rfl⟩
        · rw [if_neg hcap]
          constructor
          · rw [countActive_cons, countActive_cons]
          · simp
      · have ha' : s.isActive = false := by simpa using ha
        have hna : (!s.isActive) = true := by simp [ha']
        rw [hna]
        simp only [if_true]
        exact ⟨by trivial, by trivial⟩
    · rw [if_neg hid]
      dsimp only
      constructor
      · rw [countActive_cons, countActive_cons, ih.1]
      · simp [ih.2]

/-! Operation-level preservation of the store invariant. -/

theorem addMetric_wf (st : OTelState) (n : String) (v : Float) (ts : Nat) (h : WF st) :
    WF (addMetric st n v ts).2 := by
  obtain ⟨hA, hS, hM⟩ := h
  rw [addMetric]
  by_cases hc : st.metrics.length ≥ MAX_METRICS
  · rw [if_pos hc]
    exact ⟨hA, hS, hM⟩
  · rw [if_neg hc]
    refine ⟨hA, hS, ?_⟩
    dsimp only
    rw [List.length_append]
    simp only [MAX_METRICS] at hc ⊢
    simp
    omega

theorem sendMetrics_state (env : Env) (st : OTelState) (sts : List Int) :
    (sendMetrics env st sts).2.1.spans = st.spans ∧
    (sendMetrics env st sts).2.1.activeSpanCount = st.activeSpanCount ∧
    (sendMetrics env st sts).2.1.metrics.length ≤ st.metrics.length ∧
    (sendMetrics env st sts).2.1.currentTraceId0 = st.currentTraceId0 ∧
    (sendMetrics env st sts).2.1.currentTraceId1 = st.currentTraceId1 := by
  rw [sendMetrics.eq_def]
  split
  · exact ⟨rfl, rfl, le_refl _, rfl, rfl⟩
  · split
    · exact ⟨rfl, rfl, le_refl _, rfl, rfl⟩
    · split
      · exact ⟨rfl, rfl, le_refl _, rfl, rfl⟩
      · split
        · exact ⟨rfl, rfl, le_refl _, rfl, rfl⟩
        · split
          · exact ⟨rfl, rfl, by simp, rfl, rfl⟩
          · split
            · exact ⟨rfl, rfl, by simp, rfl, rfl⟩
            · exact ⟨rfl, rfl, by simp, rfl, rfl⟩

theorem sendMetrics_wf (env : Env) (st : OTelState) (sts : List Int) (h : WF st) :
    WF (sendMetrics env st sts).2.1 := by
  obtain ⟨hA, hS, hM⟩ := h
  obtain ⟨q1, q2, q3, _, _⟩ := sendMetrics_state env st sts
  exact ⟨by rw [q1, q2, hA], by rw [q1]; exact hS, le_trans q3 hM⟩

theorem endSpan_wf (env : Env) (st : OTelState) (spanId : Nat) (h : WF st) :
    WF (endSpan env st spanId).2 := by
  obtain ⟨hA, hS, hM⟩ := h
  rw [endSpan]
  by_cases h0 : spanId = 0
  · rw [if_pos h0]
    exact ⟨hA, hS, hM⟩
  · rw [if_neg h0]
    dsimp only
    have hc := endSpanGo_cases env.now spanId st.spans
    by_cases hflag : (endSpanGo env.now spanId st.spans).2.2 = true
    · have h2 := hc.2 hflag
      simp only [hflag, if_true]
      refine ⟨?_, ?_, hM⟩
      · dsimp only
        have hb : countActive st.spans ≤ st.spans.length := countActive_le_length _
        rw [hA, dec8_eq (by omega) (by simp only [MAX_SPANS] at hS; omega)]
        omega
      · dsimp only
        rw [h2.2]
        exact hS
    · have hflag' : (endSpanGo env.now spanId st.spans).2.2 = false := by simpa using hflag
      have h2 := hc.1 hflag'
      simp only [hflag', Bool.false_eq_true, if_false]
      refine ⟨?_, ?_, hM⟩
      · dsimp only
        rw [h2.1, hA]
      · dsimp only
        rw [h2.1]
        exact hS

theorem addSpanAttributeStr_wf (st : OTelState) (spanId : Nat) (k v : String) (h : WF st) :
    WF (addSpanAttributeStr st spanId k v).2 := by
  obtain ⟨hA, hS, hM⟩ := h
  rw [addSpanAttributeStr]
  by_cases h0 : spanId = 0
  · rw [if_pos h0]
    exact ⟨hA, hS, hM⟩
  · rw [if_neg h0]
    dsimp only
    have h2 := addAttrGo_shape { key := k, stringValue := v, doubleValue := 0, isString := true }
      spanId st.spans
    exact ⟨by dsimp only; rw [h2.1, hA], by dsimp only; rw [h2.2]; exact hS, hM⟩

theorem addSpanAttributeNum_wf (st : OTelState) (spanId : Nat) (k : String) (v : Float)
    (h : WF st) : WF (addSpanAttributeNum st spanId k v).2 := by
  obtain ⟨hA, hS, hM⟩ := h
  rw [addSpanAttributeNum]
  by_cases h0 : spanId = 0
  · rw [if_pos h0]
    exact ⟨hA, hS, hM⟩
  · rw [if_neg h0]
    dsimp only
    have h2 := addAttrGo_shape { key := k, stringValue := "", doubleValue := v, isString := false }
      spanId st.spans
    exact ⟨by dsimp only; rw [h2.1, hA], by dsimp only; rw [h2.2]; exact hS, hM⟩

theorem startSpan_wf (env : Env) (st : OTelState) (name : String) (parent newId : Nat)
    (sts : List Int) (h : WF st) : WF (startSpan env st name parent newId sts).2.1 := by
  rw [startSpan]
  dsimp only
  by_cases h75 : st.spans.length ≥ MAX_SPANS * 3 / 4
  · rw [if_pos h75]
    have hcl := cleanupOldSpans_state env st sts h
    by_cases hfull : (cleanupOldSpans env st sts).1.spans.length ≥ MAX_SPANS
    · rw [if_pos hfull]
      exact hcl.1
    · rw [if_neg hfull]
      obtain ⟨⟨qA, qS, qM⟩, _, _, _, _⟩ := hcl
      refine ⟨?_, ?_, qM⟩
      · dsimp only
        have hb := countActive_le_length (cleanupOldSpans env st sts).1.spans
        rw [qA, inc8_eq (by simp only [MAX_SPANS] at hfull; omega), countActive_append]
        simp [countActive, List.filter]
      · dsimp only
        rw [List.length_append]
        simp only [MAX_SPANS] at hfull ⊢
        simp
        omega
  · rw [if_neg h75]
    obtain ⟨hA, hS, hM⟩ := h
    by_cases hfull : st.spans.length ≥ MAX_SPANS
    · rw [if_pos hfull]
      exact ⟨hA, hS, hM⟩
    · rw [if_neg hfull]
      refine ⟨?_, ?_, hM⟩
      · dsimp only
        have hb := countActive_le_length st.spans
        rw [hA, inc8_eq (by simp only [MAX_SPANS] at hfull; omega), countActive_append]
        simp [countActive, List.filter]
      · dsimp only
        rw [List.length_append]
        simp only [MAX_SPANS] at hfull ⊢
        simp
        omega

/-! Search characterizations used for the `endSpan` / `addSpanAttribute`
contracts. -/

theorem endSpanGo_found (now now2 spanId : Nat) :
    ∀ (l : List Span) (s : Span),
      l.find? (fun t => t.spanId == spanId) = some s → s.isActive = true →
      (endSpanGo now spanId l).1 = true ∧
      (endSpanGo now spanId l).2.2 = true ∧
      (endSpanGo now spanId l).2.1.find? (fun t => t.spanId == spanId) =
        some { s with isActive := false, endTimeNanos := now } ∧
      endSpanGo now2 spanId (endSpanGo now spanId l).2.1 =
        (false, (endSpanGo now spanId l).2.1, false) := by
  intro l
  induction l with
  | nil => intro s h; simp at h
  | cons t rest ih =>
    intro s h hact
    by_cases hid : t.spanId = spanId
    · have hpt : (fun u : Span => u.spanId == spanId) t = true := by simpa using hid
      rw [List.find?_cons_of_pos rest hpt] at h
      have hts : t = s := by simpa using h
      subst hts
      rw [endSpanGo, if_pos hid]
      have hna : (!t.isActive) = false := by simp [hact]
      rw [hna]
      simp only [Bool.false_eq_true, if_false]
      refine ⟨by trivial, by trivial, ?_, ?_⟩
      · dsimp only
        have hpt2 : (fun u : Span => u.spanId == spanId)
            { t with isActive := false, endTimeNanos := now } = true := by simpa using hid
        rw [List.find?_cons_of_pos rest hpt2]
      · dsimp only
        rw [endSpanGo, if_pos hid]
        simp
    · have hpt : ¬(fun u : Span => u.spanId == spanId) t = true := by simpa using hid
      rw [List.find?_cons_of_neg rest (by simpa using hpt)] at h
      have h2 := ih s h hact
      rw [endSpanGo, if_neg hid]
      dsimp only
      refine ⟨h2.1, h2.2.1, ?_, ?_⟩
      · rw [List.find?_cons_of_neg _ (by simpa using hpt)]
        exact h2.2.2.1
      · rw [endSpanGo, if_neg hid]
        rw [h2.2.2.2]

theorem addAttrGo_spec (attr : SpanAttribute) (spanId : Nat) :
    ∀ l : List Span,
      (l.find? (fun t => t.spanId == spanId) = none → addAttrGo attr spanId l = (false, l)) ∧
      (∀ s, l.find? (fun t => t.spanId == spanId) = some s → s.isActive = false →
        addAttrGo attr spanId l = (false, l)) ∧
      (∀ s, l.find? (fun t => t.spanId == spanId) = some s → s.isActive = true →
        MAX_SPAN_ATTRS ≤ s.attributes.length → addAttrGo attr spanId l = (false, l)) ∧
      (∀ s, l.find? (fun t => t.spanId == spanId) = some s → s.isActive = true →
        s.attributes.length < MAX_SPAN_ATTRS →
        (addAttrGo attr spanId l).1 = true ∧
        (addAttrGo attr spanId l).2.find? (fun t => t.spanId == spanId) =
          some { s with attributes := s.attributes ++ [attr] }) := by
  intro l
  induction l with
  | nil =>
    refine ⟨fun _ => rfl, ?_, ?_, ?_⟩ <;> intro s h <;> simp at h
  | cons t rest ih =>
    by_cases hid : t.spanId = spanId
    · have hpt : (fun u : Span => u.spanId == spanId) t = true := by simpa using hid
      refine ⟨?_, ?_, ?_, ?_⟩
      · intro h
        rw [List.find?_cons_of_pos rest hpt] at h
        simp at h
      · intro s h hact
        rw [List.find?_cons_of_pos rest hpt] at h
        have hts : t = s := by simpa using h
        subst hts
        rw [addAttrGo, if_pos hid]
        have hna : (!t.isActive) = true := by simp [hact]
        rw [hna]
        simp
      · intro s h hact hcap
        rw [List.find?_cons_of_pos rest hpt] at h
        have hts : t = s := by simpa using h
        subst hts
        rw [addAttrGo, if_pos hid]
        have hna : (!t.isActive) = false := by simp [hact]
        rw [hna]
        simp only [Bool.false_eq_true, if_false]
        rw [if_pos hcap]
      · intro s h hact hcap
        rw [List.find?_cons_of_pos rest hpt] at h
        have hts : t = s := by simpa using h
        subst hts
        rw [addAttrGo, if_pos hid]
        have hna : (!t.isActive) = false := by simp [hact]
        rw [hna]
        simp only [Bool.false_eq_true, if_false]
        rw [if_neg (by omega)]
        refine ⟨rfl, ?_⟩
        dsimp only
        have hpt2 : (fun u : Span => u.spanId == spanId)
            { t with attributes := t.attributes ++ [attr] } = true := by simpa using hid
        rw [List.find?_cons_of_pos rest hpt2]
    · have hpt : ¬(fun u : Span => u.spanId == spanId) t = true := by simpa using hid
      have hneg := List.find?_cons_of_neg (p := fun u : Span => u.spanId == spanId)
        rest (by simpa using hpt) (a := t)
      refine ⟨?_, ?_, ?_, ?_⟩
      · intro h
        rw [hneg] at h
        have h2 := ih.1 h
        rw [addAttrGo, if_neg hid, h2]
      · intro s h hact
        rw [hneg] at h
        have h2 := ih.2.1 s h hact
        rw [addAttrGo, if_neg hid, h2]
      · intro s h hact hcap
        rw [hneg] at h
        have h2 := ih.2.2.1 s h hact hcap
        rw [addAttrGo, if_neg hid, h2]
      · intro s h hact hcap
        rw [hneg] at h
        have h2 := ih.2.2.2 s h hact hcap
        rw [addAttrGo, if_neg hid]
        dsimp only
        refine ⟨h2.1, ?_⟩
        rw [List.find?_cons_of_neg _ (by simpa using hpt)]
        exact h2.2

/-- sendTraces on a store with no completed span: early success, state
untouched. -/
theorem sendTraces_noCompleted (env : Env) (st : OTelState) (sts : List Int)
    (hany : st.spans.any isCompletedSpan = false) :
    sendTraces env st sts = (true, st, sts) := by
  rw [sendTraces]
  simp only [hany, Bool.not_false, if_true]

/-- sendTraces with completed spans but an empty endpoint: failure before
payload creation, only the error message changes. -/
theorem sendTraces_noEndpoint (env : Env) (st : OTelState) (sts : List Int)
    (hany : st.spans.any isCompletedSpan = true) (hep : env.tracesEndpoint.isEmpty = true) :
    sendTraces env st sts =
      (false, { st with lastErrorMessage := "No endpoint specified" }, sts) := by
  rw [sendTraces]
  simp only [hany, Bool.not_true, Bool.false_eq_true, if_false, hep, if_true]

/-! Concrete data for witnesses and counterexamples. -/

def envW : Env :=
  { now := 100, serviceName := "svc", serviceVersion := "1.0", wifiSsid := "net",
    tracesEndpoint := "ep", wifiConnected := true, wifiStillConnected := true,
    fmtDouble := fun _ => "0.00", errorToString := fun _ => "err", responseBody := fun _ => "" }

def envNoEp : Env := { envW with tracesEndpoint := "" }

def mW : MetricPoint := { name := "m", value := 0, timestamp_nanos := 5 }

def stEmpty : OTelState :=
  { metrics := [], spans := [], activeSpanCount := 0, currentTraceId0 := 1, currentTraceId1 := 2,
    lastErrorMessage := "None", lastHttpCode := 0 }

def stC1 : OTelState := { stEmpty with metrics := [mW] }

def spC2 : Span :=
  { name := "t", traceId0 := 1, traceId1 := 2, spanId := 7, parentSpanId := 0,
    startTimeNanos := 3, endTimeNanos := 5, attributes := [], isActive := false }

def stC2x : OTelState := { stEmpty with spans := [spC2] }

def spC8 : Span :=
  { name := "a", traceId0 := 1, traceId1 := 2, spanId := 5, parentSpanId := 0,
    startTimeNanos := 3, endTimeNanos := 0, attributes := [], isActive := true }

def stC8 : OTelState := { stEmpty with spans := [spC8], activeSpanCount := 1 }

def spActive (i : Nat) : Span :=
  { name := "a", traceId0 := 1, traceId1 := 2, spanId := i, parentSpanId := 0,
    startTimeNanos := 3, endTimeNanos := 0, attributes := [], isActive := true }

def stC4 : OTelState :=
  { stEmpty with spans := (List.range 38).map (fun i => spActive (i + 1)),
                 activeSpanCount := 38 }

def stC5 : OTelState :=
  { stEmpty with spans := (List.range 41).map (fun i => spActive (i + 1)),
                 activeSpanCount := 41 }

def docW : String := (createBatchPayload envW [mW]).getD ""

/-! Claim theorems. -/

/-- C6: serialization never produces a document longer than the 4096-byte
encoding buffer; whenever the renderer returns a document (rather than
signalling overflow with `none`), that document fits in the buffer.  This
holds for the metrics renderer `createBatchPayload` and the trace renderer
`createTracePayload`, for every environment (hence every formatting of
names, doubles and timestamps) and every buffer state. -/
theorem claim_C6 :
    (∀ (env : Env) (metrics : List MetricPoint) (doc : String),
      createBatchPayload env metrics = some doc → doc.length ≤ JSON_BUFFER_SIZE) ∧
    (∀ (env : Env) (spans spans' : List Span) (doc : String),
      createTracePayload env spans = (some doc, spans') → doc.length ≤ JSON_BUFFER_SIZE) := by
  constructor
  · intro env metrics doc h
    exact le_of_lt (createBatchPayload_length h)
  · intro env spans spans' doc h
    exact le_of_lt (createTracePayload_length h)

/-- C6 witness: a concrete one-metric batch renders successfully and the
resulting document is within the buffer bound. -/
theorem claim_C6_witness :
    createBatchPayload envW [mW] = some docW ∧ docW.length ≤ JSON_BUFFER_SIZE := by
  have h : createBatchPayload envW [mW] = some docW := by rfl
  exact ⟨h, claim_C6.1 envW [mW] docW h⟩

/-- C3: each successful export cycle of the trace drain loop strictly reduces
the number of Completed spans in the store: if payload creation succeeds
(returning the marked span list `spans'`), then after the success-path
mark/compact pass the Completed count is strictly below its previous value,
so the recursive drain in `sendTraces` terminates once no Completed spans
remain or a send fails. -/
theorem claim_C3 (env : Env) (spans : List Span) (p : String) (spans' : List Span)
    (h : createTracePayload env spans = (some p, spans')) :
    countCompleted (removeMarkedSpans (markSentSpans spans' 0)) < countCompleted spans :=
  successfulCycle_decreases h

/-- C3 witness: one completed span; after a successful cycle the completed
count drops from 1 to 0. -/
theorem claim_C3_witness :
    countCompleted (removeMarkedSpans (markSentSpans (createTracePayload envW [spC2]).2 0)) <
      countCompleted [spC2] := by
  exact claim_C3 envW [spC2] ((createTracePayload envW [spC2]).1.getD "")
    ((createTracePayload envW [spC2]).2) (by rfl)

/-- C1 counterexample: a transport failure does NOT leave the metric buffer
unchanged.  With one buffered metric and an HTTP 500 response, `sendMetrics`
reports failure yet clears the buffer (`metricCount = 0`), because the code
resets `metricCount` unconditionally after the POST. -/
theorem claim_C1_cex :
    stC1.metrics.length = 1 ∧
    (sendMetrics envW stC1 [500]).1 = false ∧
    (sendMetrics envW stC1 [500]).2.1.metrics = [] := by
  exact ⟨rfl, rfl, rfl⟩

/-- C1 (amended): once `sendMetrics` reaches the POST (non-empty buffer, WiFi
up at both checks, payload creation succeeded), the metric buffer is cleared
to empty regardless of the transport outcome; the call reports success
exactly for a 2xx status, and the span store is untouched.  Only the
pre-POST failure paths preserve the buffer. -/
theorem claim_C1 (env : Env) (st : OTelState) (code : Int) (rest : List Int)
    (h1 : ¬st.metrics.length = 0) (h2 : env.wifiConnected = true)
    (h3 : (createBatchPayload env st.metrics).isSome = true)
    (h4 : env.wifiStillConnected = true) :
    (sendMetrics env st (code :: rest)).2.1.metrics = [] ∧
    ((sendMetrics env st (code :: rest)).1 = true ↔ 200 ≤ code ∧ code < 300) ∧
    (sendMetrics env st (code :: rest)).2.1.spans = st.spans := by
  cases hp : createBatchPayload env st.metrics with
  | none => rw [hp] at h3; simp at h3
  | some p =>
    rw [sendMetrics.eq_def, if_neg h1]
    have hw : (!env.wifiConnected) = false := by simp [h2]
    rw [hw]
    simp only [Bool.false_eq_true, if_false]
    rw [hp]
    dsimp only
    have hw2 : (!env.wifiStillConnected) = false := by simp [h4]
    rw [hw2]
    simp only [Bool.false_eq_true, if_false]
    by_cases hc : code < 200 ∨ 300 ≤ code
    · rw [if_pos hc]
      refine ⟨rfl, ?_, rfl⟩
      constructor
      · intro hx
        simp at hx
      · intro hx
        exact absurd hx (by omega)
    · rw [if_neg hc]
      refine ⟨rfl, ?_, rfl⟩
      constructor
      · intro _
        omega
      · intro _
        rfl

/-- C1 witness: the amended statement at a concrete success status. -/
theorem claim_C1_witness :
    (sendMetrics envW stC1 [204]).2.1.metrics = [] ∧ (sendMetrics envW stC1 [204]).1 = true := by
  have h := claim_C1 envW stC1 204 [] (by simp [stC1, stEmpty, mW]) rfl (by rfl) rfl
  exact ⟨h.1, h.2.1.mpr (by omega)⟩

/-- C7 counterexample: calling `sendMetrics` with an empty buffer returns
`false` (failure), not success as the claim states. -/
theorem claim_C7_cex : (sendMetrics envW stEmpty []).1 = false := by rfl

/-- C7 (amended): calling `sendMetrics` with an empty metric buffer is a
no-op on the buffers that returns *failure* (`false`), setting only the last
error message to "No metrics to send" and leaving everything else (metrics,
spans, counters, HTTP code) unchanged. -/
theorem claim_C7 (env : Env) (st : OTelState) (sts : List Int) (h : st.metrics = []) :
    sendMetrics env st sts =
      (false, { st with lastErrorMessage := "No metrics to send" }, sts) := by
  rw [sendMetrics.eq_def, if_pos (by simp [h])]

/-- C7 witness. -/
theorem claim_C7_witness :
    sendMetrics envW stEmpty [] =
      (false, { stEmpty with lastErrorMessage := "No metrics to send" }, []) :=
  claim_C7 envW stEmpty [] rfl

/-- C2 counterexample: a trace export whose send fails does NOT leave end
timestamps unchanged.  With one completed span (end timestamp 5) and an HTTP
404 response, `sendTraces` fails but the span's end timestamp has been
overwritten with the PendingRemoval sentinel 1 — the marking happens inside
`createTracePayload`, *before* transmission, not after a successful send. -/
theorem claim_C2_cex :
    spC2.endTimeNanos = 5 ∧
    (sendTraces envW stC2x [404]).1 = false ∧
    (sendTraces envW stC2x [404]).2.1.spans.map Span.endTimeNanos = [1] := by
  exact ⟨rfl, rfl, rfl⟩

/-- C2 (amended): the PendingRemoval sentinel (`endTimeNanos = 1`) is set
during payload serialization, before transmission: a successful
`createTracePayload` returns the store with exactly the first
`spansToSendOf` completed spans marked (`markFirstCompleted`).  The
compaction pass `removeMarkedSpans` removes exactly the spans with
`!isActive ∧ endTimeNanos = 1` and preserves the relative order of the rest
(it is a sublist of the input).  A trace export whose send fails leaves the
store exactly as serialization left it, i.e. with the batch's spans still
marked. -/
theorem claim_C2 :
    (∀ (env : Env) (spans : List Span) (p : String) (spans' : List Span),
      createTracePayload env spans = (some p, spans') →
      spans' = markFirstCompleted (spansToSendOf spans) spans) ∧
    (∀ spans : List Span, List.Sublist (removeMarkedSpans spans) spans) ∧
    (∀ (spans : List Span) (s : Span),
      s ∈ removeMarkedSpans spans ↔ s ∈ spans ∧ isMarkedSpan s = false) ∧
    (∀ (env : Env) (st : OTelState) (code : Int) (rest : List Int) (p : String)
        (spans' : List Span),
      env.tracesEndpoint.isEmpty = false → ¬(200 ≤ code ∧ code < 300) →
      createTracePayload env st.spans = (some p, spans') →
      (sendTraces env st (code :: rest)).2.1.spans = spans') := by
  refine ⟨?_, ?_, ?_, ?_⟩
  · intro env spans p spans' h
    exact (createTracePayload_some h).2
  · intro spans
    rw [removeMarkedSpans_eq_filter]
    exact List.filter_sublist spans
  · intro spans s
    rw [removeMarkedSpans_eq_filter]
    simp [List.mem_filter]
  · intro env st code rest p spans' hep hfail hcp
    have hpos := (createTracePayload_some hcp).1
    have hany : st.spans.any isCompletedSpan = true := (countCompleted_pos_iff_any _).mp hpos
    rw [sendTraces]
    simp only [hany, Bool.not_true, Bool.false_eq_true, if_false]
    simp only [hep, Bool.false_eq_true, if_false]
    rw [hcp]
    dsimp only
    rw [if_neg hfail]

/-- C2 witness: the failure-persistence component at the concrete 404 run,
with the marking characterization instantiated. -/
theorem claim_C2_witness :
    (sendTraces envW stC2x [404]).2.1.spans =
      markFirstCompleted (spansToSendOf [spC2]) [spC2] := by
  exact claim_C2.2.2.2 envW stC2x 404 [] ((createTracePayload envW [spC2]).1.getD "")
    (markFirstCompleted (spansToSendOf [spC2]) [spC2]) rfl (by omega) (by rfl)

/-- C8: for a nonzero span id whose first occurrence in the store is an
Active span, the first `endSpan` call succeeds and stamps that span's end
timestamp with the current time; a second `endSpan` on the same id — now
Completed — is rejected (`false`) and leaves the entire state (in
particular the stored end timestamp) unchanged. -/
theorem claim_C8 (env env2 : Env) (st : OTelState) (id : Nat) (s : Span)
    (h0 : ¬id = 0) (hf : st.spans.find? (fun t => t.spanId == id) = some s)
    (ha : s.isActive = true) :
    ∃ st', endSpan env st id = (true, st') ∧
      st'.spans.find? (fun t => t.spanId == id) =
        some { s with isActive := false, endTimeNanos := env.now } ∧
      endSpan env2 st' id = (false, st') := by
  have h := endSpanGo_found env.now env2.now id st.spans s hf ha
  refine ⟨{ st with
      spans := (endSpanGo env.now id st.spans).2.1,
      activeSpanCount := dec8 st.activeSpanCount }, ?_, ?_, ?_⟩
  · rw [endSpan, if_neg h0]
    dsimp only
    rw [h.1, h.2.1]
    simp only [if_true]
  · exact h.2.2.1
  · rw [endSpan, if_neg h0]
    dsimp only
    rw [h.2.2.2]
    rfl

/-- C8 witness: concrete double-close run. -/
theorem claim_C8_witness :
    (endSpan envW stC8 5).1 = true ∧ (endSpan envW (endSpan envW stC8 5).2 5).1 = false := by
  obtain ⟨st', h1, h2, h3⟩ := claim_C8 envW envW stC8 5 spC8 (by omega) rfl rfl
  constructor
  · rw [h1]
  · rw [h1]
    dsimp only
    rw [h3]

/-- C9: `addSpanAttribute` (both overloads, whose logic is identical)
succeeds exactly when the id is nonzero, a span with that id exists, its
first occurrence is Active, and its attribute count is below the cap
`MAX_SPAN_ATTRS = 10`.  In every rejection case (zero id, unknown id,
non-Active span, cap reached) the call returns `false` and the state is
completely unchanged — in particular the already-stored attributes are
retained unmodified, so after 10 successful additions the 11th is rejected
with the first 10 intact.  On success the attribute is appended to that
span's list. -/
theorem claim_C9 (st : OTelState) (id : Nat) (k v : String) (w : Float) :
    (addSpanAttributeStr st 0 k v = (false, st) ∧
      addSpanAttributeNum st 0 k w = (false, st)) ∧
    (st.spans.find? (fun t => t.spanId == id) = none →
      addSpanAttributeStr st id k v = (false, st) ∧
      addSpanAttributeNum st id k w = (false, st)) ∧
    (∀ s, st.spans.find? (fun t => t.spanId == id) = some s → s.isActive = false →
      addSpanAttributeStr st id k v = (false, st) ∧
      addSpanAttributeNum st id k w = (false, st)) ∧
    (∀ s, st.spans.find? (fun t => t.spanId == id) = some s → s.isActive = true →
      MAX_SPAN_ATTRS ≤ s.attributes.length →
      addSpanAttributeStr st id k v = (false, st) ∧
      addSpanAttributeNum st id k w = (false, st)) ∧
    (∀ s, st.spans.find? (fun t => t.spanId == id) = some s → s.isActive = true →
      s.attributes.length < MAX_SPAN_ATTRS → ¬id = 0 →
      (addSpanAttributeStr st id k v).1 = true ∧
      (addSpanAttributeStr st id k v).2.spans.find? (fun t => t.spanId == id) =
        some { s with attributes := s.attributes ++
          [{ key := k, stringValue := v, doubleValue := 0, isString := true }] } ∧
      (addSpanAttributeNum st id k w).1 = true ∧
      (addSpanAttributeNum st id k w).2.spans.find? (fun t => t.spanId == id) =
        some { s with attributes := s.attributes ++
          [{ key := k, stringValue := "", doubleValue := w, isString := false }] }) := by
  have hstr := addAttrGo_spec
    { key := k, stringValue := v, doubleValue := 0, isString := true } id st.spans
  have hnum := addAttrGo_spec
    { key := k, stringValue := "", doubleValue := w, isString := false } id st.spans
  refine ⟨?_, ?_, ?_, ?_, ?_⟩
  · constructor
    · rw [addSpanAttributeStr, if_pos rfl]
    · rw [addSpanAttributeNum, if_pos rfl]
  · intro h
    by_cases h0 : id = 0
    · constructor
      · rw [addSpanAttributeStr, if_pos h0]
      · rw [addSpanAttributeNum, if_pos h0]
    · constructor
      · rw [addSpanAttributeStr, if_neg h0]
        dsimp only
        rw [hstr.1 h]
      · rw [addSpanAttributeNum, if_neg h0]
        dsimp only
        rw [hnum.1 h]
  · intro s h hact
    by_cases h0 : id = 0
    · constructor
      · rw [addSpanAttributeStr, if_pos h0]
      · rw [addSpanAttributeNum, if_pos h0]
    · constructor
      · rw [addSpanAttributeStr, if_neg h0]
        dsimp only
        rw [hstr.2.1 s h hact]
      · rw [addSpanAttributeNum, if_neg h0]
        dsimp only
        rw [hnum.2.1 s h hact]
  · intro s h hact hcap
    by_cases h0 : id = 0
    · constructor
      · rw [addSpanAttributeStr, if_pos h0]
      · rw [addSpanAttributeNum, if_pos h0]
    · constructor
      · rw [addSpanAttributeStr, if_neg h0]
        dsimp only
        rw [hstr.2.2.1 s h hact hcap]
      · rw [addSpanAttributeNum, if_neg h0]
        dsimp only
        rw [hnum.2.2.1 s h hact hcap]
  · intro s h hact hcap h0
    have hs := hstr.2.2.2 s h hact hcap
    have hn := hnum.2.2.2 s h hact hcap
    refine ⟨?_, ?_, ?_, ?_⟩
    · rw [addSpanAttributeStr, if_neg h0]
      dsimp only
      rw [hs.1]
    · rw [addSpanAttributeStr, if_neg h0]
      dsimp only
      rw [hs.2]
    · rw [addSpanAttributeNum, if_neg h0]
      dsimp only
      rw [hn.1]
    · rw [addSpanAttributeNum, if_neg h0]
      dsimp only
      rw [hn.2]

/-- C9 witness: a successful string-attribute addition to the concrete
active span. -/
theorem claim_C9_witness :
    (addSpanAttributeStr stC8 5 "k" "x").1 = true ∧
    (addSpanAttributeStr stC8 5 "k" "x").2.spans.find? (fun t => t.spanId == 5) =
      some { spC8 with attributes :=
        [{ key := "k", stringValue := "x", doubleValue := 0, isString := true }] } := by
  have h := (claim_C9 stC8 5 "k" "x" 0).2.2.2.2 spC8 rfl rfl (by decide) (by omega)
  exact ⟨h.1, h.2.1⟩

/-- C4: for a well-formed store whose occupancy has reached 75% of capacity,
`startSpan` runs the automatic cleanup pass (`cleanupOldSpans`) before it
can fail: the call returns the sentinel 0 exactly when the store is still at
full capacity (MAX_SPANS = 50) after that cleanup, in which case the state
is exactly the post-cleanup state; otherwise it returns the fresh (nonzero)
generated id and appends a new Active span carrying that id, the current
trace id, and start timestamp equal to the current time. -/
theorem claim_C4 (env : Env) (st : OTelState) (name : String) (parent newId : Nat)
    (sts : List Int) (hWF : WF st) (hocc : 75 * MAX_SPANS ≤ 100 * st.spans.length)
    (hid : ¬newId = 0) :
    ((startSpan env st name parent newId sts).1 = 0 ↔
      (cleanupOldSpans env st sts).1.spans.length = MAX_SPANS) ∧
    ((startSpan env st name parent newId sts).1 = 0 →
      (startSpan env st name parent newId sts).2.1 = (cleanupOldSpans env st sts).1) ∧
    (¬(startSpan env st name parent newId sts).1 = 0 →
      (startSpan env st name parent newId sts).1 = newId ∧
      (startSpan env st name parent newId sts).2.1.spans =
        (cleanupOldSpans env st sts).1.spans ++
          [{ name := name.take 31, traceId0 := st.currentTraceId0,
             traceId1 := st.currentTraceId1, spanId := newId, parentSpanId := parent,
             startTimeNanos := env.now, endTimeNanos := 0, attributes := [],
             isActive := true }]) := by
  have hcl := cleanupOldSpans_state env st sts hWF
  have hle := hcl.1.2.1
  have h75 : st.spans.length ≥ MAX_SPANS * 3 / 4 := by
    simp only [MAX_SPANS] at hocc ⊢
    omega
  rw [startSpan]
  dsimp only
  rw [if_pos h75]
  by_cases hfull : (cleanupOldSpans env st sts).1.spans.length ≥ MAX_SPANS
  · rw [if_pos hfull]
    refine ⟨⟨fun _ => by omega, fun _ => rfl⟩, fun _ => rfl, fun hne => absurd rfl hne⟩
  · rw [if_neg hfull]
    dsimp only
    refine ⟨⟨fun h0 => absurd h0 hid, fun hL => absurd hL (by omega)⟩, ?_, ?_⟩
    · intro h0
      exact absurd h0 hid
    · intro _
      refine ⟨rfl, ?_⟩
      rw [hcl.2.2.2.1, hcl.2.2.2.2]

/-- C4 witness: a well-formed store with 38 active spans (76% occupancy);
the cleanup pass runs, the store is not full afterwards, and the new span id
is returned. -/
theorem claim_C4_witness : (startSpan envW stC4 "x" 0 7 []).1 = 7 := by
  have h := claim_C4 envW stC4 "x" 0 7 [] ⟨by decide, by decide, by decide⟩ (by decide)
    (by omega)
  exact (h.2.2 (by decide)).1

/-- C5 counterexample: the cascade does not force-close "until occupancy
drops to 50% of capacity" — force-closing changes no occupancy at all.  With
41 active spans (82%) and an unconfigured endpoint (every export fails), the
cascade force-ends 16 spans (the active count drops from 41 to 25) yet the
store still holds all 41 spans afterwards, occupancy 82% > 50%. -/
theorem claim_C5_cex :
    (cleanupOldSpans envNoEp stC5 []).1.spans.length = 41 ∧
    countActive (cleanupOldSpans envNoEp stC5 []).1.spans = 25 := by
  have h1 := sendTraces_noCompleted envNoEp stC5 [] (by rfl)
  have h2 : forceEndSpans envNoEp.now stC5.spans.length stC5.spans 0 stC5.activeSpanCount =
      (forceEndFirst envNoEp.now 16 stC5.spans, 16, 25) := by rfl
  have h3 := sendTraces_noEndpoint envNoEp
    { stC5 with spans := forceEndFirst envNoEp.now 16 stC5.spans, activeSpanCount := 25 } []
    (by rfl) rfl
  have hmain : cleanupOldSpans envNoEp stC5 [] =
      ({ stC5 with spans := forceEndFirst envNoEp.now 16 stC5.spans, activeSpanCount := 25,
                   lastErrorMessage := "No endpoint specified" },
        []) := by
    rw [cleanupOldSpans]
    rw [if_pos (show stC5.spans.length ≥ MAX_SPANS * 60 / 100 by decide)]
    dsimp only
    rw [h1]
    dsimp only
    rw [if_pos (show stC5.spans.length ≥ MAX_SPANS * 60 / 100 by decide)]
    rw [if_neg (show ¬0 < (stC5.spans.filter (fun s => !s.isActive)).length by decide)]
    rw [if_pos (show stC5.spans.length ≥ MAX_SPANS * 80 / 100 by decide)]
    rw [h2]
    dsimp only
    rw [if_pos (show (0 : Nat) < 16 by decide)]
    rw [h3]
  rw [hmain]
  exact ⟨by rfl, by rfl⟩

/-- C5 (amended): when occupancy is at least 80% of capacity after the
aggressive compaction, the cascade force-closes the oldest Active spans in
creation order (list order), stamping each with the current time, until the
number of spans *not yet force-closed* is at most 50% of capacity — the
force-end loop itself never changes occupancy (`length` preserved); the
number closed is `min (countActive) (total - 25)`; it then immediately
attempts another export, and occupancy drops only if that export succeeds.
The cascade always returns a well-formed store and reports no failure.  The
first conjunct characterizes the loop against the specification-side
`forceEndFirst`; the second states invariant preservation of the whole
cascade; the third states that on the ≥ 80% path with at least one span
force-closed the cascade's result is exactly the state after the follow-up
export attempt. -/
theorem claim_C5 :
    (∀ (now total : Nat) (l : List Span) (ended asc : Nat),
      (forceEndSpans now total l ended asc).1 =
        forceEndFirst now (min (countActive l) (total - ended - MAX_SPANS / 2)) l ∧
      (forceEndSpans now total l ended asc).2.1 =
        ended + min (countActive l) (total - ended - MAX_SPANS / 2) ∧
      (forceEndSpans now total l ended asc).1.length = l.length) ∧
    (∀ (env : Env) (st : OTelState) (sts : List Int), WF st →
      WF (cleanupOldSpans env st sts).1) ∧
    (∀ (env : Env) (st : OTelState) (sts : List Int),
      st.spans.length ≥ MAX_SPANS * 60 / 100 →
      (sendTraces env st sts).2.1.spans.length ≥ MAX_SPANS * 60 / 100 →
      0 < ((sendTraces env st sts).2.1.spans.filter (fun s => !s.isActive)).length →
      (((sendTraces env st sts).2.1.spans.filter (fun s => s.isActive)).length ≥
        MAX_SPANS * 80 / 100) →
      0 < (forceEndSpans env.now
            ((sendTraces env st sts).2.1.spans.filter (fun s => s.isActive)).length
            ((sendTraces env st sts).2.1.spans.filter (fun s => s.isActive)) 0
            (sendTraces env st sts).2.1.activeSpanCount).2.1 →
      cleanupOldSpans env st sts =
        ((sendTraces env
            { (sendTraces env st sts).2.1 with
              spans := (forceEndSpans env.now
                ((sendTraces env st sts).2.1.spans.filter (fun s => s.isActive)).length
                ((sendTraces env st sts).2.1.spans.filter (fun s => s.isActive)) 0
                (sendTraces env st sts).2.1.activeSpanCount).1,
              activeSpanCount := (forceEndSpans env.now
                ((sendTraces env st sts).2.1.spans.filter (fun s => s.isActive)).length
                ((sendTraces env st sts).2.1.spans.filter (fun s => s.isActive)) 0
                (sendTraces env st sts).2.1.activeSpanCount).2.2 }
            (sendTraces env st sts).2.2).2.1,
          (sendTraces env
            { (sendTraces env st sts).2.1 with
              spans := (forceEndSpans env.now
                ((sendTraces env st sts).2.1.spans.filter (fun s => s.isActive)).length
                ((sendTraces env st sts).2.1.spans.filter (fun s => s.isActive)) 0
                (sendTraces env st sts).2.1.activeSpanCount).1,
              activeSpanCount := (forceEndSpans env.now
                ((sendTraces env st sts).2.1.spans.filter (fun s => s.isActive)).length
                ((sendTraces env st sts).2.1.spans.filter (fun s => s.isActive)) 0
                (sendTraces env st sts).2.1.activeSpanCount).2.2 }
            (sendTraces env st sts).2.2).2.2)) := by
  refine ⟨forceEndSpans_spec, fun env st sts h => (cleanupOldSpans_state env st sts h).1, ?_⟩
  intro env st sts h60 h60b hcc h80 hfe
  rw [cleanupOldSpans]
  dsimp only
  rw [if_pos h60, if_pos h60b, if_pos hcc, if_pos h80, if_pos hfe]

/-- C5 witness: the loop characterization evaluated at the 41-span store
(16 spans force-closed), and invariant preservation of the cascade for a
well-formed store. -/
theorem claim_C5_witness :
    (forceEndSpans 9 41 stC5.spans 0 41).2.1 = 16 ∧
    WF (cleanupOldSpans envNoEp stC5 []).1 := by
  constructor
  · rw [(claim_C5.1 9 41 stC5.spans 0 41).2.1]
    rfl
  · exact claim_C5.2.1 envNoEp stC5 [] ⟨by decide, by decide, by decide⟩

/-- C10: every public operation — `startSpan` (including its cleanup pass),
`endSpan`, both `addSpanAttribute` overloads, `sendTraces` with its
compaction, the capacity-cleanup cascade, `addMetric` and `sendMetrics` —
preserves the store invariant `WF`: `activeSpanCount` equals the number of
stored spans with the `isActive` flag, and the metric and span buffers never
exceed their capacities (15 and 50).  Consequently `getSpanStats` reports
total, active, and completed counts with `completed = total - active` (the
uint8 subtraction never wraps). -/
theorem claim_C10 :
    (∀ (env : Env) (st : OTelState) (name : String) (parent newId : Nat) (sts : List Int),
      WF st → WF (startSpan env st name parent newId sts).2.1) ∧
    (∀ (env : Env) (st : OTelState) (id : Nat), WF st → WF (endSpan env st id).2) ∧
    (∀ (st : OTelState) (id : Nat) (k v : String), WF st →
      WF (addSpanAttributeStr st id k v).2) ∧
    (∀ (st : OTelState) (id : Nat) (k : String) (w : Float), WF st →
      WF (addSpanAttributeNum st id k w).2) ∧
    (∀ (env : Env) (st : OTelState) (sts : List Int), WF st →
      WF (sendTraces env st sts).2.1) ∧
    (∀ (env : Env) (st : OTelState) (sts : List Int), WF st →
      WF (cleanupOldSpans env st sts).1) ∧
    (∀ (st : OTelState) (n : String) (v : Float) (ts : Nat), WF st →
      WF (addMetric st n v ts).2) ∧
    (∀ (env : Env) (st : OTelState) (sts : List Int), WF st →
      WF (sendMetrics env st sts).2.1) ∧
    (∀ st : OTelState, WF st →
      getSpanStats st =
        (st.spans.length, st.activeSpanCount, st.spans.length - st.activeSpanCount)) := by
  refine ⟨startSpan_wf, endSpan_wf, addSpanAttributeStr_wf, addSpanAttributeNum_wf,
    fun env st sts h => sendTraces_wf env sts st h,
    fun env st sts h => (cleanupOldSpans_state env st sts h).1,
    addMetric_wf,
    fun env st sts h => sendMetrics_wf env st sts h, ?_⟩
  intro st h
  obtain ⟨hA, hS, hM⟩ := h
  have hb := countActive_le_length st.spans
  simp only [getSpanStats, sub8, Prod.mk.injEq]
  refine ⟨by trivial, by trivial, ?_⟩
  simp only [MAX_SPANS] at hS
  omega

/-- C10 witness: invariant preservation for a concrete `addMetric`, and the
stats equation on the concrete one-active-span store. -/
theorem claim_C10_witness :
    WF (addMetric stEmpty "m" 0 1).2 ∧ getSpanStats stC8 = (1, 1, 0) := by
  constructor
  · exact claim_C10.2.2.2.2.2.2.1 stEmpty "m" 0 1 ⟨by decide, by decide, by decide⟩
  · have h := claim_C10.2.2.2.2.2.2.2.2 stC8 ⟨by decide, by decide, by decide⟩
    exact h.trans rfl

end IotOtel
